import Mathlib

/-!
Verification of the constrained multi-stage reasoning layer of
`Modules/Module2/reasoning_engine.py` (STEP 6 of the NeuroChorno pipeline).

The Python module is shallowly embedded below.  Python `str` is modelled as
`List Char` (ASCII; the module's own vocabulary and templates are ASCII),
Python `float`/`int` as `ℚ`/`ℤ` (idealised exact numerics: the module treats
numbers as exact decimal quantities and all its comparisons are order/equality
comparisons that coincide with the rational ones on the decimal values
involved), dicts as association lists in insertion order, and fallible Python
code (`raise`/`except`) as `Except`/`Option` values.
-/

/-- Python `str` values are modelled as lists of characters. -/
abbrev PyStr := List Char

namespace Reasoning

/- ------------------------------------------------------------------
Module-level constants (reasoning_engine.py lines 14-52).
------------------------------------------------------------------ -/

/-- `ALLOWED_ROIS` (lines 14-20). -/
def ALLOWED_ROIS : List PyStr :=
  ["hippocampus".toList, "entorhinal_cortex".toList, "temporal_lobe".toList,
   "parietal_lobe".toList, "ventricles".toList]

/-- `FORBIDDEN_TERMS` (lines 22-29). -/
def FORBIDDEN_TERMS : List PyStr :=
  ["alzheimer".toList, "dementia".toList, "mci".toList,
   "mild cognitive impairment".toList, "diagnosis".toList,
   "will develop".toList]

/-- `MISMATCH_TERMS` (lines 31-39). -/
def MISMATCH_TERMS : List PyStr :=
  ["discrepancy".toList, "inconsistent".toList, "contradict".toList,
   "mismatch".toList, "does not align".toList, "spatial conflict".toList,
   "anatomical divergence".toList]

/-- `MAX_RETRY = 2` (line 41). -/
def MAX_RETRY : Nat := 2

/-- `NUMERIC_TOLERANCE = 0.05` (line 42). -/
def NUMERIC_TOLERANCE : ℚ := 5 / 100

/- ------------------------------------------------------------------
Character helpers (ASCII model of Python `str.lower`, `str.upper`,
`str.title`).
------------------------------------------------------------------ -/

/-- ASCII lower-casing of one character (model of Python `str.lower`
applied character-wise; all strings handled by the module are ASCII). -/
def lowerChar (c : Char) : Char :=
  if 'A' ≤ c ∧ c ≤ 'Z' then Char.ofNat (c.toNat + 32) else c

/-- ASCII upper-casing of one character. -/
def upperChar (c : Char) : Char :=
  if 'a' ≤ c ∧ c ≤ 'z' then Char.ofNat (c.toNat - 32) else c

/-- ASCII alphabetic test (the "cased" characters relevant to
`str.title` on this module's inputs). -/
def isAlphaChar (c : Char) : Bool :=
  ('a' ≤ c && c ≤ 'z') || ('A' ≤ c && c ≤ 'Z')

/-- Model of Python `str.lower`. -/
def lowerStr (s : PyStr) : PyStr := s.map lowerChar

/-- Helper for `pyTitle`: `cased` records whether the previous character
was cased. -/
def pyTitleGo (cased : Bool) : PyStr → PyStr
  | [] => []
  | c :: r =>
      (if isAlphaChar c then (if cased then lowerChar c else upperChar c) else c)
        :: pyTitleGo (isAlphaChar c) r

/-- Model of Python `str.title`: the first cased character of every run of
cased characters is upper-cased, the rest lower-cased. -/
def pyTitle (s : PyStr) : PyStr := pyTitleGo false s

/-- Python substring test `needle in hay` (`str.__contains__`). -/
def isSubstring (needle hay : PyStr) : Bool :=
  hay.tails.any (fun t => needle.isPrefixOf t)

/- ------------------------------------------------------------------
The numeric-token regular expression.

`_allowed_numeric_values` (line 100) and `_extract_numbers_from_jsonish`
(line 119) both scan strings with `re.findall(r"-?\d+\.?\d+", s)`.
`matchTokenLen s` is the length of the (greedy, backtracking) match of
that pattern at the start of `s`, or `none`; `findallNum` is `re.findall`:
scan left to right, on a match emit it and resume after it, otherwise
advance one character.
------------------------------------------------------------------ -/

/-- Length of the match of `\d+\.?\d+` at the head of `s` (greedy with
backtracking, exactly as Python's `re` resolves this pattern), if any. -/
def matchNumLen (s : PyStr) : Option Nat :=
  let d1 := (s.takeWhile Char.isDigit).length
  if d1 = 0 then none
  else
    match s.drop d1 with
    | '.' :: rest2 =>
        let d2 := (rest2.takeWhile Char.isDigit).length
        if d2 ≠ 0 then some (d1 + 1 + d2)
        else if 2 ≤ d1 then some d1 else none
    | _ => if 2 ≤ d1 then some d1 else none

/-- Length of the match of `-?\d+\.?\d+` at the head of `s`, if any. -/
def matchTokenLen (s : PyStr) : Option Nat :=
  match s with
  | [] => none
  | c :: rest =>
      if c = '-' then (matchNumLen rest).map (· + 1)
      else matchNumLen (c :: rest)

/-- Fuelled scanner implementing `re.findall(r"-?\d+\.?\d+", ·)`; the fuel
only makes the structural recursion explicit (every step consumes at least
one character, so `s.length` fuel always suffices). -/
def findallGo : Nat → PyStr → List PyStr
  | 0, _ => []
  | _ + 1, [] => []
  | fuel + 1, c :: rest =>
      match matchTokenLen (c :: rest) with
      | some l => (c :: rest).take l :: findallGo fuel ((c :: rest).drop l)
      | none => findallGo fuel rest

/-- `re.findall(r"-?\d+\.?\d+", s)`. -/
def findallNum (s : PyStr) : List PyStr := findallGo s.length s

/- ------------------------------------------------------------------
Parsing numeric tokens: Python `float(tok)` / `int(tok)` on the tokens
produced by the scanner above (and by well-formed JSON numbers).
------------------------------------------------------------------ -/

/-- Numeric value of a digit character. -/
def digitVal (c : Char) : Nat := c.toNat - 48

/-- Value of a non-empty digit string read in base 10. -/
def parseNat (l : PyStr) : Nat :=
  l.foldl (fun a c => 10 * a + digitVal c) 0

/-- All characters are decimal digits. -/
def allDigits (l : PyStr) : Bool := l.all Char.isDigit

/-- Python `float(t)` on an unsigned decimal token `digits` or
`digits.digits`.  (The full `float()` grammar also strips whitespace and
accepts forms such as `".5"`, `"1e3"` or `"inf"`; only the token shapes
produced by the numeric-token regex and by the module itself are needed,
and on those this model is exact.) -/
def parseUnsignedTok (t : PyStr) : Option ℚ :=
  let I := t.takeWhile Char.isDigit
  match t.drop I.length with
  | [] => if I.isEmpty then none else some (parseNat I)
  | '.' :: F =>
      if I.isEmpty || F.isEmpty || !allDigits F then none
      else some ((parseNat I : ℚ) + (parseNat F : ℚ) / 10 ^ F.length)
  | _ => none

/-- Python `float(t)` on a decimal token with optional leading sign. -/
def parseTok (t : PyStr) : Option ℚ :=
  match t with
  | [] => none
  | c :: rest =>
      if c = '-' then (parseUnsignedTok rest).map (fun q => -q)
      else parseUnsignedTok (c :: rest)

/- ------------------------------------------------------------------
Formatting: Python `round(x, 3)` and `str(float)`.
------------------------------------------------------------------ -/

/-- Python `round()` to an integer: banker's rounding (round half to
even). -/
def pyRoundInt (x : ℚ) : ℤ :=
  let f := ⌊x⌋
  let frac := x - f
  if frac < 1 / 2 then f
  else if 1 / 2 < frac then f + 1
  else if f % 2 = 0 then f else f + 1

/-- Python `round(x, 3)`. -/
def round3 (x : ℚ) : ℚ := ((pyRoundInt (x * 1000) : ℤ) : ℚ) / 1000

/-- Base-10 digits of `n`, least significant first (fuelled; `fuel ≥ n`
always suffices). -/
def natDigitsRev : Nat → Nat → List Nat
  | 0, _ => []
  | _ + 1, 0 => []
  | fuel + 1, n + 1 => ((n + 1) % 10) :: natDigitsRev fuel ((n + 1) / 10)

/-- Decimal digit characters of `n`, most significant first (`"0"` for 0). -/
def natDigitChars (n : Nat) : PyStr :=
  if n = 0 then ['0']
  else ((natDigitsRev n n).map Nat.digitChar).reverse

/-- Strip trailing `'0'` characters from a fractional-digit string, keeping
at least one digit (Python's `str(float)` prints `5.0`, not `5.`). -/
def trimFrac (l : PyStr) : PyStr :=
  let r := l.reverse.dropWhile (fun c => c = '0')
  if r.isEmpty then ['0'] else r.reverse

/-- Plain-decimal rendering of `q` at scale `10^k` (model of Python
`str(x)` for a float `x` whose exact value is `q` with `q * 10^k ∈ ℤ`:
sign, integer part, `'.'`, fractional digits with trailing zeros
trimmed).  Python prints the shortest round-tripping decimal, which on
such values is this string up to trailing zeros; trailing zeros affect
neither the token shape nor the parsed value.  (`str` switches to
scientific notation for |x| ≥ 1e16 or 0 < |x| < 1e-4 after rounding;
the idealised-decimal model keeps plain notation everywhere.) -/
def decChars (k : Nat) (q : ℚ) : PyStr :=
  let n : ℤ := ⌊q * 10 ^ k⌋
  let m := n.natAbs
  let intPart := natDigitChars (m / 10 ^ k)
  let fracDigits := natDigitChars (m % 10 ^ k)
  let fracPadded := List.replicate (k - fracDigits.length) '0' ++ fracDigits
  (if n < 0 then ['-'] else []) ++ intPart ++ '.' :: trimFrac fracPadded

/-- Model of Python `str(x)` for a float `x` of exact decimal value `q`
(17 significant decimals bound the shortest round-trip repr). -/
def pyFloatStr (q : ℚ) : PyStr := decChars 17 q

/-- Python `int(q)` for a float of exact value `q`: truncation toward
zero. -/
def pyIntQ (q : ℚ) : ℤ := q.num / (q.den : ℤ)

/- ------------------------------------------------------------------
The data model.

Python values flowing through the JSON paths (parsed model output, the
fallback report, the payload's rationale list) are modelled by `PyVal`;
dicts are association lists in insertion order.
------------------------------------------------------------------ -/

/-- A Python value as it appears in the JSON-ish data the module handles. -/
inductive PyVal where
  | vnum : ℚ → PyVal
  | vstr : PyStr → PyVal
  | vbool : Bool → PyVal
  | vnull : PyVal
  | vlist : List PyVal → PyVal
  | vdict : List (PyStr × PyVal) → PyVal

/-- Dict lookup (`d[k]` / `k in d`): first binding wins; dicts built by
this development keep at most one binding per key, new keys are appended
and existing keys overwritten in place, as in CPython. -/
def dictGet? (kvs : List (PyStr × PyVal)) (k : PyStr) : Option PyVal :=
  (kvs.find? (fun kv => decide (kv.1 = k))).map (fun kv => kv.2)

/-- Dict assignment `d[k] = v`: overwrite in place, else append. -/
def dictSet (kvs : List (PyStr × PyVal)) (k : PyStr) (v : PyVal) :
    List (PyStr × PyVal) :=
  match kvs with
  | [] => [(k, v)]
  | (k', v') :: rest =>
      if k' = k then (k, v) :: rest else (k', v') :: dictSet rest k v

/-- Dict assignment lifted to `PyVal` (only ever applied to dicts). -/
def setOnDict (v : PyVal) (k : PyStr) (x : PyVal) : PyVal :=
  match v with
  | .vdict kvs => .vdict (dictSet kvs k x)
  | other => other

/-- Python `float(v)` on a `PyVal` (`None`/lists/dicts raise, modelled as
`none`; `float(True) = 1.0`). -/
def asFloat (v : PyVal) : Option ℚ :=
  match v with
  | .vnum q => some q
  | .vbool b => some (if b then 1 else 0)
  | .vstr s => parseTok s
  | _ => none

/-- Python `int(v)` on a `PyVal` (`int()` of a float truncates toward
zero; of a string it accepts only an optionally signed digit string). -/
def pyIntOf (v : PyVal) : Option ℤ :=
  match v with
  | .vnum q => some (pyIntQ q)
  | .vbool b => some (if b then 1 else 0)
  | .vstr s =>
      match s with
      | '-' :: ds => if !ds.isEmpty && allDigits ds then some (-(parseNat ds : ℤ)) else none
      | ds => if !ds.isEmpty && allDigits ds then some (parseNat ds : ℤ) else none
  | _ => none

/-- The numeric source-of-truth payload (§3 of the spec; built once per
run by `payload_builder.py` and read-only to this module).  The five
required regions are total by construction — the module reads
`payload["roi_metrics"][roi]` only for `roi ∈ ALLOWED_ROIS`. -/
structure RoiMetric where
  annual_percent_change : ℚ
  z_score : ℚ

/-- `payload["progression"]`. -/
structure Progression where
  cls : PyStr
  score : ℤ
  rationale : List PyStr

/-- `payload["metadata"]`. -/
structure Metadata where
  age : ℤ
  sex : PyStr
  interval_years : ℚ

/-- `payload["context_images"]` (paths; never dereferenced by this
module). -/
structure ContextImages where
  jacobian_overlay : PyStr
  t1_followup_slice : PyStr

/-- The payload record. -/
structure Payload where
  metadata : Metadata
  roi_metrics : PyStr → RoiMetric
  progression : Progression
  context_images : ContextImages

/- ------------------------------------------------------------------
Basic validators (lines 76-131).
------------------------------------------------------------------ -/

/-- Sequential `for`-loop with `raise`: first failure wins. -/
def forEachE {α : Type} (l : List α) (f : α → Except PyStr Unit) :
    Except PyStr Unit :=
  match l with
  | [] => .ok ()
  | a :: r =>
      match f a with
      | .error e => .error e
      | .ok _ => forEachE r f

/-- `_validate_payload` (lines 76-80): only the four top-level keys are
checked (`k not in payload`); nothing inspects the regions or the image
paths.  Takes the raw payload dict. -/
def py_validate_payload (payload : PyVal) : Except PyStr Unit :=
  match payload with
  | .vdict kvs =>
      forEachE
        ["metadata".toList, "roi_metrics".toList, "progression".toList,
         "context_images".toList]
        (fun k =>
          if (dictGet? kvs k).isSome then .ok ()
          else .error ("Missing payload key: ".toList ++ k))
  | _ => .error "payload is not a dict".toList

/-- `_check_forbidden_terms` (lines 83-87): case-insensitive substring
scan, first hit raises. -/
def check_forbidden_terms (text : PyStr) : Except PyStr Unit :=
  let lower := lowerStr text
  match FORBIDDEN_TERMS.find? (fun term => isSubstring term lower) with
  | some term => .error ("Forbidden medical claim detected: ".toList ++ term)
  | none => .ok ()

/-- Numeric tokens of a string, parsed (`float(m)` under `try/except`). -/
def strNums (s : PyStr) : List ℚ := (findallNum s).filterMap parseTok

/-- `_allowed_numeric_values` (lines 90-105): every region's two metrics,
the classification score, the interval-in-years, then every numeric token
inside the rationale strings. -/
def allowed_numeric_values (p : Payload) : List ℚ :=
  (ALLOWED_ROIS.flatMap fun roi =>
    [(p.roi_metrics roi).annual_percent_change, (p.roi_metrics roi).z_score])
  ++ [((p.progression.score : ℤ) : ℚ), p.metadata.interval_years]
  ++ p.progression.rationale.flatMap strNums

mutual

/-- `_extract_numbers_from_jsonish` (lines 108-124): recursive collection
of numeric leaves and of numeric tokens inside strings, in traversal
order; booleans excluded. -/
def extractNums : PyVal → List ℚ
  | .vnum q => [q]
  | .vstr s => strNums s
  | .vbool _ => []
  | .vnull => []
  | .vlist vs => extractNumsList vs
  | .vdict kvs => extractNumsDict kvs

/-- Values of a list, in order. -/
def extractNumsList : List PyVal → List ℚ
  | [] => []
  | v :: vs => extractNums v ++ extractNumsList vs

/-- Values of a dict, in insertion order (Python `obj.values()`). -/
def extractNumsDict : List (PyStr × PyVal) → List ℚ
  | [] => []
  | (_, v) :: kvs => extractNums v ++ extractNumsDict kvs

end

/-- `_numbers_within_allowed` (lines 127-131): first found number with no
allow-list partner within `NUMERIC_TOLERANCE`, if any. -/
def numbers_within_allowed (found allowed : List ℚ) : Option ℚ :=
  found.find? (fun num =>
    !(allowed.any (fun a => decide (|num - a| ≤ NUMERIC_TOLERANCE))))

/-- `math.isclose(a, b, rel_tol, abs_tol)`:
`|a-b| ≤ max(rel_tol * max(|a|, |b|), abs_tol)`. -/
def py_isclose (a b rel_tol abs_tol : ℚ) : Bool :=
  decide (|a - b| ≤ max (rel_tol * max |a| |b|) abs_tol)

/-- The payload value `_validate_final_json` compares a reported ROI
number against (lines 150-151). -/
def payloadRoiVal (p : Payload) (roi nk : PyStr) : ℚ :=
  if nk = "annual_percent_change".toList then
    (p.roi_metrics roi).annual_percent_change
  else (p.roi_metrics roi).z_score

/-- One numeric-fidelity check of `_validate_final_json` (lines 146-154):
key present, convertible, within `NUMERIC_TOLERANCE` (absolute) of the
payload value.  A non-dict entry or an unconvertible value raises inside
the executor's `try`, i.e. is a validation failure. -/
def checkRoiNum (p : Payload) (roi nk : PyStr) (entry : PyVal) :
    Except PyStr Unit :=
  match entry with
  | .vdict ekvs =>
      match dictGet? ekvs nk with
      | none =>
          .error ("Missing numeric key ".toList ++ nk ++ " for ROI ".toList ++ roi)
      | some v =>
          match asFloat v with
          | none => .error "could not convert value to float".toList
          | some rv =>
              if py_isclose rv (payloadRoiVal p roi nk) 0 NUMERIC_TOLERANCE then
                .ok ()
              else
                .error ("Numeric mismatch for ".toList ++ roi ++ " ".toList ++ nk)
  | _ => .error "ROI entry is not an object".toList

/-- Step 2 of `_validate_final_json` (lines 141-154): every required
region present in `roi_interpretations` with both numbers matching. -/
def checkRois (roiBlock : PyVal) (p : Payload) : Except PyStr Unit :=
  match roiBlock with
  | .vdict rb =>
      forEachE ALLOWED_ROIS (fun roi =>
        match dictGet? rb roi with
        | none => .error ("Missing ROI in final JSON: ".toList ++ roi)
        | some entry =>
            forEachE ["annual_percent_change".toList, "z_score".toList]
              (fun nk => checkRoiNum p roi nk entry))
  | _ => .error "roi_interpretations is not an object".toList

/-- Step 3 of `_validate_final_json` (lines 157-166): classification
block complete, class matching case-insensitively, score matching as an
integer. -/
def checkClassification (cls : PyVal) (p : Payload) : Except PyStr Unit :=
  match cls with
  | .vdict ckvs =>
      if !(dictGet? ckvs "class".toList).isSome
          || !(dictGet? ckvs "score".toList).isSome
          || !(dictGet? ckvs "rationale".toList).isSome then
        .error "classification block incomplete".toList
      else
        match dictGet? ckvs "class".toList with
        | some (.vstr s) =>
            if lowerStr s ≠ lowerStr p.progression.cls then
              .error
                "Classification text does not match deterministic classification in payload.".toList
            else
              match (dictGet? ckvs "score".toList).bind pyIntOf with
              | some i =>
                  if i ≠ p.progression.score then
                    .error "Classification score mismatch.".toList
                  else .ok ()
              | none => .error "could not convert score to int".toList
        | _ => .error "classification class is not a string".toList
  | _ => .error "classification is not an object".toList

/-- Step 4 of `_validate_final_json` (lines 168-173): the stray-number
allow-list check over the whole object. -/
def checkUnauthorized (obj : PyVal) (p : Payload) : Except PyStr Unit :=
  match numbers_within_allowed (extractNums obj) (allowed_numeric_values p) with
  | some u =>
      .error ("Unauthorized numeric value detected: ".toList ++ pyFloatStr u)
  | none => .ok ()

/-- Sequencing of two checks: the second runs only when the first one
did not raise. -/
def thenE {α : Type} (x : Except PyStr Unit) (y : Except PyStr α) :
    Except PyStr α :=
  match x with
  | .error e => .error e
  | .ok _ => y

/-- `_validate_final_json` (lines 134-173).  A non-dict parsed object
always raises on one of the key accesses, i.e. is a validation failure. -/
def validate_final_json (final_obj : PyVal) (p : Payload) :
    Except PyStr Unit :=
  match final_obj with
  | .vdict kvs =>
      thenE
        (forEachE
          ["roi_interpretations".toList, "final_narrative".toList,
           "classification".toList, "confidence_level".toList]
          (fun k =>
            if (dictGet? kvs k).isSome then .ok ()
            else .error ("Missing top-level key in final JSON: ".toList ++ k)))
        (thenE
          (checkRois ((dictGet? kvs "roi_interpretations".toList).getD .vnull) p)
          (thenE
            (checkClassification
              ((dictGet? kvs "classification".toList).getD .vnull) p)
            (checkUnauthorized final_obj p)))
  | _ => .error "final object is not a dict".toList

/- ------------------------------------------------------------------
`_extract_json_substring` (lines 176-192) and, for comparison, the
extraction the specification describes.
------------------------------------------------------------------ -/

/-- The brace-balance scan of `_extract_json_substring` (lines 182-191):
reject on a close brace at depth zero, require depth zero at the end. -/
def braceScanBalanced : PyStr → Nat → Bool
  | [], d => decide (d = 0)
  | c :: r, d =>
      if c = '{' then braceScanBalanced r (d + 1)
      else if c = '}' then
        (if d = 0 then false else braceScanBalanced r (d - 1))
      else braceScanBalanced r d

/-- `_extract_json_substring` (lines 176-192): the slice from the FIRST
`'{'` to the LAST `'}'` (`text.find` / `text.rfind`), accepted only if
its braces balance. -/
def extract_json_substring (text : PyStr) : Option PyStr :=
  match text.findIdx? (fun c => c = '{'),
        text.reverse.findIdx? (fun c => c = '}') with
  | some s, some rj =>
      if text.length - 1 - rj ≤ s then none
      else
        if braceScanBalanced ((text.take (text.length - 1 - rj + 1)).drop s) 0 then
          some ((text.take (text.length - 1 - rj + 1)).drop s)
        else none
  | _, _ => none

/-- Helper for `specFirstBalanced`: consume characters tracking brace
depth, returning the consumed segment when depth returns to zero. -/
def specBalGo : PyStr → Nat → PyStr → Option PyStr
  | [], _, _ => none
  | c :: r, d, acc =>
      if c = '}' then
        (if d = 1 then some (c :: acc).reverse else specBalGo r (d - 1) (c :: acc))
      else if c = '{' then specBalGo r (d + 1) (c :: acc)
      else specBalGo r d (c :: acc)

/-- Extraction as the SPECIFICATION words it (§4.1 step 4): "extract the
first balanced `\x7b...\x7d` substring (track brace depth, reject if
braces never balance)" — scan from the first `'{'` and stop at the point
where the depth first returns to zero. -/
def specFirstBalanced (text : PyStr) : Option PyStr :=
  match text.findIdx? (fun c => c = '{') with
  | none => none
  | some s => specBalGo (text.drop s) 0 []

/- ------------------------------------------------------------------
Deterministic fallback generator (lines 198-238).
------------------------------------------------------------------ -/

/-- `roi.replace('_', ' ').title()` (line 212). -/
def roiTitle (roi : PyStr) : PyStr :=
  pyTitle (roi.map (fun c => if c = '_' then ' ' else c))

/-- The interpretation template of line 212:
`f"{title}: annual change {apc}% per year (Z = {z})."`. -/
def interpString (roi : PyStr) (apc z : ℚ) : PyStr :=
  roiTitle roi ++ ": annual change ".toList ++ decChars 3 apc
    ++ "% per year (Z = ".toList ++ decChars 3 z ++ ").".toList

/-- One entry of the fallback's `roi_interpretations` block (lines
209-217). -/
def fallbackRoiEntry (p : Payload) (roi : PyStr) : PyVal :=
  let apc := round3 (p.roi_metrics roi).annual_percent_change
  let z := round3 (p.roi_metrics roi).z_score
  .vdict
    [("annual_percent_change".toList, .vnum apc),
     ("z_score".toList, .vnum z),
     ("interpretation".toList, .vstr (interpString roi apc z))]

/-- The fallback's fixed disclosure narrative (lines 225-228). -/
def fallbackNarrative : PyStr :=
  ("Deterministic fallback narrative synthesized from validated numeric payload. "
    ++ "ROI interpretations produced programmatically to ensure numeric integrity.").toList

/-- `deterministic_fallback` (lines 198-238): a schema-valid final report
built directly from the payload, no model involved.  The three stage
texts are accepted (as in the source signature) but do not influence the
returned object — the source only logs them; the logger argument is a
pure side effect and is not modelled. -/
def deterministic_fallback (p : Payload) (_stage1 _stage2 _stage3 : PyStr) :
    PyVal :=
  .vdict
    [("roi_interpretations".toList,
        .vdict (ALLOWED_ROIS.map (fun roi => (roi, fallbackRoiEntry p roi)))),
     ("final_narrative".toList, .vstr fallbackNarrative),
     ("classification".toList,
        .vdict
          [("class".toList, .vstr p.progression.cls),
           ("score".toList, .vnum ((p.progression.score : ℤ) : ℚ)),
           ("rationale".toList,
              .vlist (p.progression.rationale.map .vstr))]),
     ("confidence_level".toList, .vstr "Low (fallback)".toList),
     ("warning_flag".toList, .vnull),
     ("repair_attempted".toList, .vbool true),
     ("fallback_used".toList, .vbool true)]

/- ------------------------------------------------------------------
`json.loads` — a recursive-descent JSON reader (fuelled; the fuel bound
in `json_loads` always suffices since every recursive step consumes
input).  Leading-zero strictness, rejection of a bare trailing decimal
point, and `NaN/Infinity` literals are not modelled; no claim depends on
them.
------------------------------------------------------------------ -/

/-- JSON whitespace skip. -/
def jSkipWs (l : PyStr) : PyStr :=
  l.dropWhile (fun c => c = ' ' || c = '\t' || c = '\n' || c = '\r')

/-- JSON string-escape decoding for the single-character escapes. -/
def jEscChar (c : Char) : Char :=
  if c = 'n' then '\n'
  else if c = 't' then '\t'
  else if c = 'r' then '\r'
  else if c = 'b' then Char.ofNat 8
  else if c = 'f' then Char.ofNat 12
  else c

/-- Hex digit value. -/
def hexVal (c : Char) : Option Nat :=
  if c.isDigit then some (c.toNat - 48)
  else if 'a' ≤ c ∧ c ≤ 'f' then some (c.toNat - 87)
  else if 'A' ≤ c ∧ c ≤ 'F' then some (c.toNat - 55)
  else none

/-- Body of a JSON string after the opening quote: content and remainder
after the closing quote. -/
def jString : PyStr → Option (PyStr × PyStr)
  | [] => none
  | '"' :: r => some ([], r)
  | '\\' :: 'u' :: a :: b :: c :: d :: r => do
      let ha ← hexVal a
      let hb ← hexVal b
      let hc ← hexVal c
      let hd ← hexVal d
      let (s, rest) ← jString r
      some (Char.ofNat (((ha * 16 + hb) * 16 + hc) * 16 + hd) :: s, rest)
  | '\\' :: c :: r => (jString r).map (fun p => (jEscChar c :: p.1, p.2))
  | c :: r => (jString r).map (fun p => (c :: p.1, p.2))

/-- A JSON number at the head of the input: `-? digits (. digits)?
([eE] sign? digits)?`. -/
def jNumber (l : PyStr) : Option (ℚ × PyStr) :=
  let (sgn, l1) : ℚ × PyStr :=
    match l with
    | '-' :: r => (-1, r)
    | _ => (1, l)
  let I := l1.takeWhile Char.isDigit
  if I.isEmpty then none
  else
    let l2 := l1.drop I.length
    let (frac, l3) : ℚ × PyStr :=
      match l2 with
      | '.' :: r =>
          let F := r.takeWhile Char.isDigit
          ((parseNat F : ℚ) / 10 ^ F.length, r.drop F.length)
      | _ => (0, l2)
    let base : ℚ := sgn * ((parseNat I : ℚ) + frac)
    match l3 with
    | 'e' :: r | 'E' :: r =>
        let (esgn, r1) : Bool × PyStr :=
          match r with
          | '-' :: r' => (true, r')
          | '+' :: r' => (false, r')
          | _ => (false, r)
        let E := r1.takeWhile Char.isDigit
        if E.isEmpty then none
        else
          let ev : ℚ := 10 ^ parseNat E
          some (if esgn then base / ev else base * ev, r1.drop E.length)
    | _ => some (base, l3)

mutual

/-- A JSON value at the head of the input. -/
def jVal : Nat → PyStr → Option (PyVal × PyStr)
  | 0, _ => none
  | fuel + 1, l =>
      match jSkipWs l with
      | '{' :: r => (jObj fuel (jSkipWs r)).map (fun p => (.vdict p.1, p.2))
      | '[' :: r => (jArr fuel (jSkipWs r)).map (fun p => (.vlist p.1, p.2))
      | '"' :: r => (jString r).map (fun p => (.vstr p.1, p.2))
      | 't' :: 'r' :: 'u' :: 'e' :: r => some (.vbool true, r)
      | 'f' :: 'a' :: 'l' :: 's' :: 'e' :: r => some (.vbool false, r)
      | 'n' :: 'u' :: 'l' :: 'l' :: r => some (.vnull, r)
      | rest => (jNumber rest).map (fun p => (.vnum p.1, p.2))

/-- Object members after `'{'` (whitespace already skipped). -/
def jObj : Nat → PyStr → Option (List (PyStr × PyVal) × PyStr)
  | 0, _ => none
  | fuel + 1, l =>
      match l with
      | '}' :: r => some ([], r)
      | _ => jMembers fuel l []

/-- `key: value` members accumulated left to right; duplicate keys
overwrite in place (CPython semantics). -/
def jMembers : Nat → PyStr → List (PyStr × PyVal) →
    Option (List (PyStr × PyVal) × PyStr)
  | 0, _, _ => none
  | fuel + 1, l, acc =>
      match l with
      | '"' :: r => do
          let (k, r1) ← jString r
          match jSkipWs r1 with
          | ':' :: r2 => do
              let (v, r3) ← jVal fuel r2
              match jSkipWs r3 with
              | '}' :: r4 => some (dictSet acc k v, r4)
              | ',' :: r4 => jMembers fuel (jSkipWs r4) (dictSet acc k v)
              | _ => none
          | _ => none
      | _ => none

/-- Array elements after `'['` (whitespace already skipped). -/
def jArr : Nat → PyStr → Option (List PyVal × PyStr)
  | 0, _ => none
  | fuel + 1, l =>
      match l with
      | ']' :: r => some ([], r)
      | _ => do
          let (v, r1) ← jVal fuel l
          match jSkipWs r1 with
          | ']' :: r2 => some ([v], r2)
          | ',' :: r2 => (jArr fuel (jSkipWs r2)).map (fun p => (v :: p.1, p.2))
          | _ => none

end

/-- `json.loads(s)`: a single JSON document with only trailing
whitespace. -/
def json_loads (s : PyStr) : Option PyVal :=
  match jVal (4 * s.length + 8) s with
  | some (v, rest) => if (jSkipWs rest).isEmpty then some v else none
  | none => none

/- ------------------------------------------------------------------
Core executor `_execute_with_retry_json` (lines 244-334).
------------------------------------------------------------------ -/

/-- A prompt package (§3 of the spec; `prompt_package` dicts in the
source). -/
structure PromptPackage where
  text : PyStr
  images : List PyStr
  stage : PyStr

/-- What the model collaborator returns: a text, or some non-string
value (only its non-stringness is ever observable to the module). -/
inductive ModelResponse where
  | str : PyStr → ModelResponse
  | nonStr : ModelResponse

/-- Executor configuration: the `expect_json` / `strict` flags. -/
structure ExecCfg where
  expect_json : Bool
  strict : Bool

/-- A validated stage result: free text (stages 1-3) or the final JSON
object (stage 4). -/
inductive StageValue where
  | textV : PyStr → StageValue
  | jsonV : PyVal → StageValue

/-- How one call of `_execute_with_retry_json` ends: a returned value
(which includes the deterministic-fallback object), the uncaught
`ValueError("Model response must be string.")` of line 264, the
re-raised validation error of line 315 at text-stage exhaustion, or the
unreachable trailing `RuntimeError` of line 334. -/
inductive ExecOutcome where
  | ret : StageValue → ExecOutcome
  | contractViolation : ExecOutcome
  | raised : PyStr → ExecOutcome
  | unexpected : ExecOutcome

/-- The three fixed non-negotiable requirements appended to every repair
prompt (lines 322-325). -/
def repairRequirements : PyStr :=
  ("\n\nREQUIREMENTS FOR THE NEXT RESPONSE (NON-NEGOTIABLE):\n"
    ++ "1) Return ONLY valid JSON.\n"
    ++ "2) Numeric values must match the provided payload EXACTLY.\n"
    ++ "3) Do NOT include forbidden medical claims.\n").toList

/-- The repair-prompt header of line 320. -/
def validationErrorHeader : PyStr := "\n\nVALIDATION ERROR:\n".toList

/-- The repair prompt package of lines 318-332: ORIGINAL prompt text
(`base_prompt`, captured once at line 255) + header + the verbatim
failure reason + the fixed requirements; images and stage tag are the
ones captured from the original package (lines 256-257). -/
def repairPackage (base : PyStr) (images : List PyStr) (stage : PyStr)
    (reason : PyStr) : PromptPackage :=
  ⟨base ++ validationErrorHeader ++ reason ++ repairRequirements,
   images, stage⟩

/-- JSON-mode tail of one attempt (lines 297-302): run
`_validate_final_json`, then set `repair_attempted = attempt > 0` and
`fallback_used = False` on the validated object. -/
def validateParsed (parsed : PyVal) (p : Payload) (attempt : Nat) :
    Except PyStr StageValue :=
  match validate_final_json parsed p with
  | .error e => .error e
  | .ok _ =>
      .ok (.jsonV (setOnDict
        (setOnDict parsed "repair_attempted".toList
          (.vbool (decide (0 < attempt))))
        "fallback_used".toList (.vbool false)))

/-- Validation of one attempt's raw response: the body of the `try`
block (lines 268-302).  Forbidden-term scan first; then either the
text-mode path (with the optional strict numeric-presence check of lines
273-278) or the JSON-mode path (direct parse, then brace-slice parse,
then full final validation, then the bookkeeping keys of lines
299-300). -/
def validateAttempt (cfg : ExecCfg) (p : Payload) (attempt : Nat)
    (response : PyStr) : Except PyStr StageValue :=
  match check_forbidden_terms response with
  | .error e => .error e
  | .ok _ =>
      if !cfg.expect_json then
        if cfg.strict then
          match forEachE ALLOWED_ROIS (fun roi =>
              let apc := pyFloatStr (p.roi_metrics roi).annual_percent_change
              let z := pyFloatStr (p.roi_metrics roi).z_score
              if !isSubstring apc response || !isSubstring z response then
                .error ("Missing numeric value in text output for ROI ".toList
                  ++ roi ++ ".".toList)
              else .ok ()) with
          | .error e => .error e
          | .ok _ => .ok (.textV response)
        else .ok (.textV response)
      else
        match json_loads response with
        | some parsed => validateParsed parsed p attempt
        | none =>
            match (extract_json_substring response).bind json_loads with
            | some parsed => validateParsed parsed p attempt
            | none => .error "Model output is not valid JSON.".toList

/-- The retry loop (`for attempt in range(MAX_RETRY + 1)`, lines
259-332), iterating over the list of remaining attempt indices.
`base`, `images` and `stage` are the values captured from the original
package before the loop (lines 255-257).  Returns the outcome and the
number of model invocations performed. -/
def execGo (client : PromptPackage → ModelResponse) (cfg : ExecCfg)
    (p : Payload) (traces : PyStr × PyStr × PyStr) (base : PyStr)
    (images : List PyStr) (stage : PyStr) :
    List Nat → PromptPackage → ExecOutcome × Nat
  | [], _ => (.unexpected, 0)
  | attempt :: rest, pkg =>
      match client pkg with
      | .nonStr => (.contractViolation, 1)
      | .str response =>
          match validateAttempt cfg p attempt response with
          | .ok v => (.ret v, 1)
          | .error e =>
              if attempt = MAX_RETRY then
                if cfg.expect_json then
                  (.ret (.jsonV (deterministic_fallback p traces.1 traces.2.1
                    traces.2.2)), 1)
                else (.raised e, 1)
              else
                let next := execGo client cfg p traces base images stage rest
                  (repairPackage base images stage e)
                (next.1, next.2 + 1)

/-- `_execute_with_retry_json` (lines 244-334). -/
def execute_with_retry (client : PromptPackage → ModelResponse)
    (cfg : ExecCfg) (p : Payload) (traces : PyStr × PyStr × PyStr)
    (pkg : PromptPackage) : ExecOutcome × Nat :=
  execGo client cfg p traces pkg.text pkg.images pkg.stage
    (List.range (MAX_RETRY + 1)) pkg

/- ------------------------------------------------------------------
Stage sequencer `run_multistage_reasoning` (lines 340-432).
------------------------------------------------------------------ -/

/-- The prompt-builder collaborator (`Prompts.py`; out of scope, a
structural contract only). -/
structure PromptBuilder where
  build_numeric_prompt : Payload → PromptPackage
  build_multimodal_prompt : Payload → PyStr → PromptPackage
  build_verification_prompt : Payload → PyStr → PyStr → PromptPackage
  build_simplification_prompt : Payload → PyStr → PromptPackage

/-- Truthiness of `final_json.get("fallback_used", False)` (line 408):
Python falsy values are `False`, `None`, `0`, and empty
strings/lists/dicts. -/
def getFallbackUsed (final_json : PyVal) : Bool :=
  match final_json with
  | .vdict kvs =>
      match dictGet? kvs "fallback_used".toList with
      | some (.vbool b) => b
      | some .vnull => false
      | some (.vnum q) => decide (q ≠ 0)
      | some (.vstr s) => !s.isEmpty
      | some (.vlist l) => !l.isEmpty
      | some (.vdict l) => !l.isEmpty
      | none => false
  | _ => false

/-- `warning_flag is None` for `final_json.get("warning_flag", None)`
(lines 416-418): key absent or value `None`. -/
def warningFlagIsNone (final_json : PyVal) : Bool :=
  match final_json with
  | .vdict kvs =>
      match dictGet? kvs "warning_flag".toList with
      | some .vnull => true
      | some _ => false
      | none => true
  | _ => true

/-- The mismatch post-check of lines 414-420: if any `MISMATCH_TERMS`
member occurs in the lower-cased stage-2 text and no warning flag is
set, force `warning_flag = "Visual-Numeric Mismatch"` and overwrite
`confidence_level` with `"Low (Visual Mismatch)"`. -/
def applyMismatchCheck (stage2_text : PyStr) (final_json : PyVal) : PyVal :=
  let lower_s2 := lowerStr stage2_text
  if (MISMATCH_TERMS.any (fun term => isSubstring term lower_s2))
      && warningFlagIsNone final_json then
    setOnDict
      (setOnDict final_json "warning_flag".toList
        (.vstr "Visual-Numeric Mismatch".toList))
      "confidence_level".toList (.vstr "Low (Visual Mismatch)".toList)
  else final_json

/-- The redundant consistency check of lines 408-412: when the final
JSON is model-generated, its classification class must still match the
payload's, case-insensitively. -/
def consistencyCheck (final_json : PyVal) (p : Payload) : Except PyStr Unit :=
  if getFallbackUsed final_json then .ok ()
  else
    match final_json with
    | .vdict kvs =>
        match dictGet? kvs "classification".toList with
        | some (.vdict ckvs) =>
            match dictGet? ckvs "class".toList with
            | some (.vstr s) =>
                if lowerStr s ≠ lowerStr p.progression.cls then
                  .error "Final JSON classification mismatch AFTER repair.".toList
                else .ok ()
            | _ => .error "final classification class missing".toList
        | _ => .error "final classification missing".toList
    | _ => .error "final JSON is not a dict".toList

/-- The value `run_multistage_reasoning` returns (lines 423-432). -/
structure RunResult where
  stage1_quantitative : PyStr
  stage2_multimodal : PyStr
  stage3_verification : PyStr
  final_output : PyVal

/-- How a whole run ends. -/
inductive RunOutcome where
  | done : RunResult → RunOutcome
  | contractViolation : RunOutcome
  | stageFailed : PyStr → RunOutcome
  | consistencyFailed : PyStr → RunOutcome
  | invalidPayload : PyStr → RunOutcome
  | unexpected : RunOutcome

/-- Outcome of a text stage as the sequencer consumes it (`cast(str, ...)`,
lines 354-386). -/
def asTextStage : ExecOutcome × Nat → Except RunOutcome PyStr
  | (.ret (.textV t), _) => .ok t
  | (.ret (.jsonV _), _) => .error .unexpected
  | (.contractViolation, _) => .error .contractViolation
  | (.raised e, _) => .error (.stageFailed e)
  | (.unexpected, _) => .error .unexpected

/-- `run_multistage_reasoning` (lines 340-432): payload check, the four
stages threaded forward, the consistency re-check, the visual-mismatch
downgrade.  `payloadKeys` is the top-level key list of the raw payload
dict this structured `Payload` was read from. -/
def run_multistage_reasoning (p : Payload) (payloadKeys : List PyStr)
    (builder : PromptBuilder) (client : PromptPackage → ModelResponse) :
    RunOutcome :=
  match py_validate_payload (.vdict (payloadKeys.map (fun k => (k, .vnull)))) with
  | .error e => .invalidPayload e
  | .ok _ =>
    let noTraces : PyStr × PyStr × PyStr := ([], [], [])
    match asTextStage (execute_with_retry client ⟨false, false⟩ p noTraces
        (builder.build_numeric_prompt p)) with
    | .error o => o
    | .ok stage1_text =>
      match asTextStage (execute_with_retry client ⟨false, false⟩ p noTraces
          (builder.build_multimodal_prompt p stage1_text)) with
      | .error o => o
      | .ok stage2_text =>
        match asTextStage (execute_with_retry client ⟨false, false⟩ p noTraces
            (builder.build_verification_prompt p stage1_text stage2_text)) with
        | .error o => o
        | .ok stage3_text =>
          match execute_with_retry client ⟨true, true⟩ p
              (stage1_text, stage2_text, stage3_text)
              (builder.build_simplification_prompt p stage3_text) with
          | (.ret (.jsonV final_json), _) =>
              match consistencyCheck final_json p with
              | .error e => .consistencyFailed e
              | .ok _ =>
                  .done ⟨stage1_text, stage2_text, stage3_text,
                    applyMismatchCheck stage2_text final_json⟩
          | (.contractViolation, _) => .contractViolation
          | _ => .unexpected

/- ------------------------------------------------------------------
The §3 payload invariant, and concrete data used by the witnesses.
------------------------------------------------------------------ -/

/-- The part of the §3 Payload invariant visible to this module's
validators: the classification class is the deterministic enum value
(`Normal` or `FastProgressor`).  The five-required-regions invariant is
structural in `Payload` (the `roi_metrics` map is total), and the
image-path-existence invariant concerns fields no validator reads. -/
def PayloadInv (p : Payload) : Prop :=
  p.progression.cls = "Normal".toList ∨ p.progression.cls = "FastProgressor".toList

/-- A concrete §3-valid payload (the §8 scenario's hippocampus values). -/
def samplePayload : Payload where
  metadata := ⟨72, "F".toList, 25 / 10⟩
  roi_metrics := fun roi =>
    if roi = "hippocampus".toList then ⟨-42 / 10, -23 / 10⟩ else ⟨-1 / 2, -1⟩
  progression := ⟨"Normal".toList, 5, ["Hippocampal atrophy Z < -2.0".toList]⟩
  context_images := ⟨"jacobian_overlay.png".toList, "t1_followup_slice.png".toList⟩

/-- A model stub that always returns a non-string value. -/
def nonStrClient : PromptPackage → ModelResponse := fun _ => .nonStr

/-- A model stub that always answers with a forbidden term. -/
def forbiddenClient : PromptPackage → ModelResponse :=
  fun _ => .str "alzheimer".toList

/-- A raw payload dict with all four top-level keys but with
`roi_metrics` missing the `hippocampus` region and with dangling image
paths. -/
def c9PayloadDict : PyVal :=
  .vdict
    [("metadata".toList, .vdict [("age".toList, .vnum 70)]),
     ("roi_metrics".toList,
        .vdict
          [("entorhinal_cortex".toList, .vdict []),
           ("temporal_lobe".toList, .vdict []),
           ("parietal_lobe".toList, .vdict []),
           ("ventricles".toList, .vdict [])]),
     ("progression".toList, .vdict []),
     ("context_images".toList,
        .vdict
          [("jacobian_overlay".toList, .vstr "does_not_exist.png".toList),
           ("t1_followup_slice".toList, .vstr "also_missing.png".toList)])]

/-- A response on which the code's extraction and the specification's
extraction disagree: two balanced groups, `"\x7b\x7d \x7b\x7d"`. -/
def c7Input : PyStr := "\x7b\x7d \x7b\x7d".toList

/- ==================================================================
Lemmas.
================================================================== -/

theorem isSubstring_iff_isInfix {needle hay : PyStr} :
    isSubstring needle hay = true ↔ needle <:+: hay := by
  unfold isSubstring
  rw [List.any_eq_true]
  constructor
  · rintro ⟨t, ht, hpre⟩
    exact List.infix_iff_prefix_suffix.mpr
      ⟨t, List.isPrefixOf_iff_prefix.mp hpre, (List.mem_tails _ _).mp ht⟩
  · intro h
    obtain ⟨t, hpre, hsuf⟩ := List.infix_iff_prefix_suffix.mp h
    exact ⟨t, (List.mem_tails _ _).mpr hsuf, List.isPrefixOf_iff_prefix.mpr hpre⟩

theorem matchNumLen_pos {s : PyStr} {l : Nat} (h : matchNumLen s = some l) :
    0 < l := by
  simp only [matchNumLen] at h
  by_cases h0 : (s.takeWhile Char.isDigit).length = 0
  · rw [if_pos h0] at h
    exact absurd h (by simp)
  · rw [if_neg h0] at h
    split at h
    · split at h
      · simp only [Option.some.injEq] at h
        omega
      · split at h
        · simp only [Option.some.injEq] at h
          omega
        · exact absurd h (by simp)
    · split at h
      · simp only [Option.some.injEq] at h
        omega
      · exact absurd h (by simp)

theorem matchTokenLen_pos {s : PyStr} {l : Nat}
    (h : matchTokenLen s = some l) : 0 < l := by
  unfold matchTokenLen at h
  split at h
  · exact absurd h (by simp)
  · split at h
    · rcases Option.map_eq_some'.mp h with ⟨l', hl', rfl⟩
      omega
    · exact matchNumLen_pos h

theorem findallGo_nil (fuel : Nat) : findallGo fuel [] = [] := by
  cases fuel <;> rfl

theorem findallGo_fuel :
    ∀ (f₁ f₂ : Nat) (s : PyStr), s.length ≤ f₁ → s.length ≤ f₂ →
      findallGo f₁ s = findallGo f₂ s := by
  intro f₁
  induction f₁ with
  | zero =>
      intro f₂ s h1 _
      have : s = [] := List.length_eq_zero.mp (Nat.le_zero.mp h1)
      subst this
      rw [findallGo_nil, findallGo_nil]
  | succ f ih =>
      intro f₂ s h1 h2
      match s with
      | [] => rw [findallGo_nil, findallGo_nil]
      | c :: rest =>
          match f₂ with
          | 0 => simp at h2
          | f₂' + 1 =>
              show findallGo (f + 1) (c :: rest) = findallGo (f₂' + 1) (c :: rest)
              unfold findallGo
              cases hm : matchTokenLen (c :: rest) with
              | none =>
                  simp only []
                  exact ih f₂' rest (by simpa using h1) (by simpa using h2)
              | some l =>
                  simp only []
                  have hl : 0 < l := matchTokenLen_pos hm
                  have hlen : ((c :: rest).drop l).length ≤ f := by
                    simp only [List.length_drop] at *
                    simp only [List.length_cons] at h1 ⊢
                    omega
                  have hlen2 : ((c :: rest).drop l).length ≤ f₂' := by
                    simp only [List.length_drop, List.length_cons] at h2 ⊢
                    omega
                  rw [ih f₂' _ hlen hlen2]

theorem findallNum_cons (c : Char) (rest : PyStr) :
    findallNum (c :: rest) =
      match matchTokenLen (c :: rest) with
      | some l => (c :: rest).take l :: findallNum ((c :: rest).drop l)
      | none => findallNum rest := by
  have step : findallGo (rest.length + 1) (c :: rest)
      = match matchTokenLen (c :: rest) with
        | some l =>
            (c :: rest).take l :: findallGo rest.length ((c :: rest).drop l)
        | none => findallGo rest.length rest := rfl
  show findallGo (rest.length + 1) (c :: rest) = _
  rw [step]
  cases hm : matchTokenLen (c :: rest) with
  | none => rfl
  | some l =>
      simp only [List.cons.injEq, true_and]
      exact findallGo_fuel rest.length ((c :: rest).drop l).length _
        (by simp only [List.length_drop, List.length_cons]
            have := matchTokenLen_pos hm
            omega)
        le_rfl

/- ==================================================================
C2 — the inclusive 0.05 tolerance boundary.
================================================================== -/

/-- C2: in the final-stage validator a reported value exactly 0.05 from
the payload value is accepted and one 0.0501 away is rejected
(`math.isclose` with `rel_tol=0, abs_tol=NUMERIC_TOLERANCE`, line 153),
and the same inclusive boundary governs the allow-list membership test:
`_numbers_within_allowed` flags nothing iff the found number lies within
0.05 of some allow-list value (line 129). -/
theorem c2_tolerance_boundary :
    (∀ v r : ℚ, |r - v| = NUMERIC_TOLERANCE →
        py_isclose r v 0 NUMERIC_TOLERANCE = true)
    ∧ (∀ v r : ℚ, |r - v| = 501 / 10000 →
        py_isclose r v 0 NUMERIC_TOLERANCE = false)
    ∧ ∀ (num : ℚ) (allowed : List ℚ),
        numbers_within_allowed [num] allowed = none ↔
          ∃ a ∈ allowed, |num - a| ≤ NUMERIC_TOLERANCE := by
  refine ⟨?_, ?_, ?_⟩
  · intro v r h
    unfold py_isclose
    rw [h, zero_mul,
      max_eq_right (by norm_num [NUMERIC_TOLERANCE] : (0 : ℚ) ≤ NUMERIC_TOLERANCE)]
    simp
  · intro v r h
    unfold py_isclose
    rw [h, zero_mul,
      max_eq_right (by norm_num [NUMERIC_TOLERANCE] : (0 : ℚ) ≤ NUMERIC_TOLERANCE)]
    norm_num [NUMERIC_TOLERANCE]
  · intro num allowed
    by_cases hA :
        allowed.any (fun a => decide (|num - a| ≤ NUMERIC_TOLERANCE)) = true
    · simp only [numbers_within_allowed, List.find?, hA, Bool.not_true]
      simp only [List.any_eq_true, decide_eq_true_eq] at hA
      simpa using hA
    · rw [Bool.not_eq_true] at hA
      simp only [numbers_within_allowed, List.find?, hA, Bool.not_false]
      constructor
      · intro h
        exact absurd h (by simp)
      · intro h
        obtain ⟨a, ha, hle⟩ := h
        exact absurd hA (by simp [List.any_eq_true]; exact ⟨a, ha, hle⟩)

/-- C2 witness: the boundary at concrete values `0.05` and `0.0501`. -/
theorem c2_witness :
    py_isclose (1 / 20) 0 0 NUMERIC_TOLERANCE = true
    ∧ py_isclose (501 / 10000) 0 0 NUMERIC_TOLERANCE = false
    ∧ (numbers_within_allowed [(1 : ℚ) / 20] [0] = none ↔
        ∃ a ∈ [(0 : ℚ)], |(1 : ℚ) / 20 - a| ≤ NUMERIC_TOLERANCE) :=
  ⟨c2_tolerance_boundary.1 0 (1 / 20) (by norm_num [NUMERIC_TOLERANCE]),
   c2_tolerance_boundary.2.1 0 (501 / 10000) (by norm_num),
   c2_tolerance_boundary.2.2 (1 / 20) [0]⟩

/- ==================================================================
C9 — what the fail-fast payload check actually checks.
================================================================== -/

/-- C9 counterexample: a payload whose `roi_metrics` is missing the
`hippocampus` region and whose image paths dangle passes
`_validate_payload` — contrary to the claim, nothing rejects it before
the first model call. -/
theorem c9_counterexample : py_validate_payload c9PayloadDict = .ok () := by
  rfl

/-- C9 (amended): before running any stage the core fails fast iff one
of the four top-level payload keys (`metadata`, `roi_metrics`,
`progression`, `context_images`) is absent; presence of the five regions
and existence of the image paths are NOT checked. -/
theorem forEachE_ok_iff {α : Type} (l : List α) (f : α → Except PyStr Unit) :
    forEachE l f = .ok () ↔ ∀ a ∈ l, f a = .ok () := by
  induction l with
  | nil => simp [forEachE]
  | cons a r ih =>
      simp only [forEachE]
      cases hfa : f a with
      | error e =>
          simp only [List.mem_cons]
          constructor
          · intro h
            exact absurd h (by simp)
          · intro h
            exact absurd (h a (Or.inl rfl)) (by simp [hfa])
      | ok u =>
          cases u
          rw [ih]
          simp [hfa]

theorem c9_amended_payload_check (kvs : List (PyStr × PyVal)) :
    py_validate_payload (.vdict kvs) = .ok () ↔
      ((dictGet? kvs "metadata".toList).isSome
        ∧ (dictGet? kvs "roi_metrics".toList).isSome
        ∧ (dictGet? kvs "progression".toList).isSome
        ∧ (dictGet? kvs "context_images".toList).isSome) := by
  have hdef : py_validate_payload (.vdict kvs)
      = forEachE
          ["metadata".toList, "roi_metrics".toList, "progression".toList,
           "context_images".toList]
          (fun k =>
            if (dictGet? kvs k).isSome then .ok ()
            else .error ("Missing payload key: ".toList ++ k)) := rfl
  have step : ∀ k : PyStr,
      ((if (dictGet? kvs k).isSome then (Except.ok () : Except PyStr Unit)
        else .error ("Missing payload key: ".toList ++ k)) = .ok ())
        ↔ (dictGet? kvs k).isSome := by
    intro k
    by_cases h : (dictGet? kvs k).isSome <;> simp [h]
  rw [hdef, forEachE_ok_iff]
  simp only [List.mem_cons, List.not_mem_nil, or_false, forall_eq_or_imp,
    forall_eq]
  rw [step, step, step, step]

/- ==================================================================
C7 — JSON-substring extraction.
================================================================== -/

/-- C7 counterexample: on the response `"\x7b\x7d \x7b\x7d"` the code's
`_extract_json_substring` returns the whole first-`'{'`-to-last-`'}'`
slice `"\x7b\x7d \x7b\x7d"`, while extracting "the first balanced
`\x7b...\x7d` substring", as the claim describes, yields `"\x7b\x7d"`. -/
theorem c7_counterexample :
    extract_json_substring c7Input = some "\x7b\x7d \x7b\x7d".toList
    ∧ specFirstBalanced c7Input = some "\x7b\x7d".toList
    ∧ extract_json_substring c7Input ≠ specFirstBalanced c7Input := by
  refine ⟨rfl, rfl, ?_⟩
  intro h
  rw [show extract_json_substring c7Input = some "\x7b\x7d \x7b\x7d".toList from rfl,
    show specFirstBalanced c7Input = some "\x7b\x7d".toList from rfl] at h
  simp at h

/-- C7 (amended): in JSON mode, when direct parsing fails the executor
takes the slice from the first `'{'` to the last `'}'`, accepts it only
if its braces balance (no close at depth zero, depth zero at the end),
and parses that slice; if extraction or the second parse fails, the
attempt is a validation failure. -/
theorem c7_amended_extraction :
    (∀ (strict : Bool) (p : Payload) (a : Nat) (r : PyStr),
      check_forbidden_terms r = .ok () →
      json_loads r = none →
      (extract_json_substring r).bind json_loads = none →
      validateAttempt ⟨true, strict⟩ p a r
        = .error "Model output is not valid JSON.".toList)
    ∧ (∀ (t c : PyStr), extract_json_substring t = some c →
        braceScanBalanced c 0 = true) := by
  constructor
  · intro strict p a r h1 h2 h3
    simp [validateAttempt, h1, h2, h3]
  · intro t c h
    unfold extract_json_substring at h
    split at h
    · split at h
      · exact absurd h (by simp)
      · split at h
        · rename_i hbal
          rw [Option.some.injEq] at h
          exact h ▸ hbal
        · exact absurd h (by simp)
    · exact absurd h (by simp)

/-- C7 witness for the amended claim: a response with no JSON at all is
a validation failure, and a returned slice is brace-balanced. -/
theorem c7_witness :
    validateAttempt ⟨true, false⟩ samplePayload 0 "no json here".toList
      = .error "Model output is not valid JSON.".toList
    ∧ braceScanBalanced "\x7by\x7d".toList 0 = true :=
  ⟨c7_amended_extraction.1 false samplePayload 0 "no json here".toList rfl rfl rfl,
   c7_amended_extraction.2 "x\x7by\x7d".toList "\x7by\x7d".toList rfl⟩

/- ==================================================================
C3 — bounded retries.
================================================================== -/

theorem execGo_calls_le_length
    (client : PromptPackage → ModelResponse) (cfg : ExecCfg) (p : Payload)
    (traces : PyStr × PyStr × PyStr) (base : PyStr) (images : List PyStr)
    (stage : PyStr) :
    ∀ (attempts : List Nat) (pkg : PromptPackage),
      (execGo client cfg p traces base images stage attempts pkg).2
        ≤ attempts.length := by
  intro attempts
  induction attempts with
  | nil => intro pkg; simp [execGo]
  | cons a rest ih =>
      intro pkg
      simp only [execGo]
      split
      · simp
      · split
        · simp
        · split
          · split <;> simp
          · rename_i response e heq hmax
            simp only [List.length_cons]
            have := ih (repairPackage base images stage e)
            omega

/-- C3: for every stage configuration and every model stub, one call of
the stage executor performs at most `MAX_RETRY + 1 = 3` model
invocations before returning a validated result, returning the fallback
(JSON stage), or propagating a failure (text stages); there is never a
fourth invocation. -/
theorem c3_bounded_retries
    (client : PromptPackage → ModelResponse) (cfg : ExecCfg) (p : Payload)
    (traces : PyStr × PyStr × PyStr) (pkg : PromptPackage) :
    (execute_with_retry client cfg p traces pkg).2 ≤ 3
    ∧ MAX_RETRY + 1 = 3 := by
  constructor
  · have := execGo_calls_le_length client cfg p traces pkg.text pkg.images
      pkg.stage (List.range (MAX_RETRY + 1)) pkg
    simpa [execute_with_retry, MAX_RETRY] using this
  · rfl

/- ==================================================================
C5 — non-string model responses are fatal.
================================================================== -/

/-- C5: at any attempt of any stage (that is, from any loop state of the
executor), a non-string model response ends the whole execution at once
with the `ContractViolation` outcome after exactly that one invocation:
it is not caught as a validation failure, triggers no repair re-prompt
and never reaches the deterministic fallback. -/
theorem c5_nonstring_fatal
    (client : PromptPackage → ModelResponse) (cfg : ExecCfg) (p : Payload)
    (traces : PyStr × PyStr × PyStr) (base : PyStr) (images : List PyStr)
    (stage : PyStr) (a : Nat) (rest : List Nat) (pkg : PromptPackage)
    (h : client pkg = .nonStr) :
    execGo client cfg p traces base images stage (a :: rest) pkg
      = (.contractViolation, 1) := by
  simp [execGo, h]

/-- C5 witness: a stub that always returns a non-string value. -/
theorem c5_witness :
    execGo nonStrClient ⟨true, true⟩ samplePayload ([], [], [])
      [] [] [] [0, 1, 2] ⟨[], [], []⟩ = (.contractViolation, 1) :=
  c5_nonstring_fatal nonStrClient ⟨true, true⟩ samplePayload ([], [], [])
    [] [] [] 0 [1, 2] ⟨[], [], []⟩ rfl

/- ==================================================================
C6 — repair-prompt construction.
================================================================== -/

/-- C6: after a validation failure with reason `e` on an attempt `a`
with `a ≠ MAX_RETRY`, the next attempt runs on exactly
`repairPackage base images stage e`, whose text is the ORIGINAL
(first-attempt) prompt text followed by the literal failure reason and
the three fixed non-negotiable requirements, and whose images and stage
tag are the ones captured from the original package. -/
theorem c6_repair_prompt
    (client : PromptPackage → ModelResponse) (cfg : ExecCfg) (p : Payload)
    (traces : PyStr × PyStr × PyStr) (base : PyStr) (images : List PyStr)
    (stage : PyStr) (a : Nat) (rest : List Nat) (pkg : PromptPackage)
    (r e : PyStr)
    (hc : client pkg = .str r)
    (hv : validateAttempt cfg p a r = .error e)
    (hmax : a ≠ MAX_RETRY) :
    (execGo client cfg p traces base images stage (a :: rest) pkg
      = ((execGo client cfg p traces base images stage rest
            (repairPackage base images stage e)).1,
         (execGo client cfg p traces base images stage rest
            (repairPackage base images stage e)).2 + 1))
    ∧ (repairPackage base images stage e).text
        = base ++ validationErrorHeader ++ e ++ repairRequirements
    ∧ e <:+: (repairPackage base images stage e).text
    ∧ (repairPackage base images stage e).images = images
    ∧ (repairPackage base images stage e).stage = stage := by
  refine ⟨?_, rfl, ?_, rfl, rfl⟩
  · simp [execGo, hc, hv, hmax]
  · exact ⟨base ++ validationErrorHeader, repairRequirements, by
      simp [repairPackage, List.append_assoc]⟩

/-- C6 witness: a first-attempt response carrying a forbidden term fails
validation and the second attempt receives the repair package built from
that literal failure reason. -/
theorem c6_witness :
    (execGo forbiddenClient ⟨false, false⟩ samplePayload ([], [], [])
        "tell me".toList [] "stage1".toList [0, 1, 2] ⟨"tell me".toList, [], "stage1".toList⟩
      = ((execGo forbiddenClient ⟨false, false⟩ samplePayload ([], [], [])
            "tell me".toList [] "stage1".toList [1, 2]
            (repairPackage "tell me".toList [] "stage1".toList
              "Forbidden medical claim detected: alzheimer".toList)).1,
         (execGo forbiddenClient ⟨false, false⟩ samplePayload ([], [], [])
            "tell me".toList [] "stage1".toList [1, 2]
            (repairPackage "tell me".toList [] "stage1".toList
              "Forbidden medical claim detected: alzheimer".toList)).2 + 1))
    ∧ (repairPackage "tell me".toList [] "stage1".toList
        "Forbidden medical claim detected: alzheimer".toList).text
        = "tell me".toList ++ validationErrorHeader
          ++ "Forbidden medical claim detected: alzheimer".toList
          ++ repairRequirements
    ∧ "Forbidden medical claim detected: alzheimer".toList <:+:
        (repairPackage "tell me".toList [] "stage1".toList
          "Forbidden medical claim detected: alzheimer".toList).text
    ∧ (repairPackage "tell me".toList [] "stage1".toList
        "Forbidden medical claim detected: alzheimer".toList).images = []
    ∧ (repairPackage "tell me".toList [] "stage1".toList
        "Forbidden medical claim detected: alzheimer".toList).stage
        = "stage1".toList :=
  c6_repair_prompt forbiddenClient ⟨false, false⟩ samplePayload ([], [], [])
    "tell me".toList [] "stage1".toList 0 [1, 2]
    ⟨"tell me".toList, [], "stage1".toList⟩ "alzheimer".toList
    "Forbidden medical claim detected: alzheimer".toList rfl rfl
    (by decide)

/- ==================================================================
C4 — the forbidden-term scan.
================================================================== -/

/-- C4: any response containing the substring `Alzheimer` in any letter
case fails that attempt's validation with the forbidden-term reason, at
every stage configuration (text or JSON mode, strict or not) and
whatever the response's numbers are — the scan runs before any numeric
or JSON check. -/
theorem c4_forbidden_term (cfg : ExecCfg) (p : Payload) (a : Nat)
    (t u : PyStr) (hsub : u <:+: t)
    (hlow : lowerStr u = "alzheimer".toList) :
    validateAttempt cfg p a t
      = .error ("Forbidden medical claim detected: ".toList
          ++ "alzheimer".toList) := by
  have hinf : "alzheimer".toList <:+: lowerStr t := by
    obtain ⟨s', t', rfl⟩ := hsub
    rw [← hlow]
    exact ⟨lowerStr s', lowerStr t', by simp [lowerStr]⟩
  have hfound : isSubstring "alzheimer".toList (lowerStr t) = true :=
    isSubstring_iff_isInfix.mpr hinf
  have hfind : FORBIDDEN_TERMS.find? (fun term => isSubstring term (lowerStr t))
      = some "alzheimer".toList := by
    simp only [FORBIDDEN_TERMS]
    exact List.find?_cons_of_pos _ hfound
  have hft : check_forbidden_terms t
      = .error ("Forbidden medical claim detected: ".toList
          ++ "alzheimer".toList) := by
    simp only [check_forbidden_terms, hfind]
  simp only [validateAttempt, hft]

/-- C4 witness: an upper-case `ALZHEIMER` in a stage-1 response. -/
theorem c4_witness :
    validateAttempt ⟨false, false⟩ samplePayload 0
        "Mild ALZHEIMER risk".toList
      = .error ("Forbidden medical claim detected: ".toList
          ++ "alzheimer".toList) :=
  c4_forbidden_term ⟨false, false⟩ samplePayload 0
    "Mild ALZHEIMER risk".toList "ALZHEIMER".toList
    ⟨"Mild ".toList, " risk".toList, rfl⟩ rfl

/- ==================================================================
C8 — the visual-mismatch downgrade.
================================================================== -/

theorem dictGet?_dictSet_self (kvs : List (PyStr × PyVal)) (k : PyStr)
    (v : PyVal) : dictGet? (dictSet kvs k v) k = some v := by
  induction kvs with
  | nil =>
      unfold dictSet dictGet?
      rw [List.find?_cons_of_pos _ (by simp)]
      rfl
  | cons kv rest ih =>
      obtain ⟨k', v'⟩ := kv
      by_cases h : k' = k
      · subst h
        have hset : dictSet ((k', v') :: rest) k' v = (k', v) :: rest := by
          simp [dictSet]
        rw [hset]
        unfold dictGet?
        rw [List.find?_cons_of_pos _ (by simp)]
        rfl
      · have hset : dictSet ((k', v') :: rest) k v
            = (k', v') :: dictSet rest k v := by
          simp [dictSet, h]
        rw [hset]
        unfold dictGet? at ih ⊢
        rw [List.find?_cons_of_neg _ (by simp [h])]
        exact ih

theorem dictGet?_dictSet_ne (kvs : List (PyStr × PyVal)) (k k' : PyStr)
    (v : PyVal) (h : k' ≠ k) :
    dictGet? (dictSet kvs k v) k' = dictGet? kvs k' := by
  have hkk : ¬(k = k') := fun he => h he.symm
  induction kvs with
  | nil =>
      unfold dictSet dictGet?
      rw [List.find?_cons_of_neg _ (by simp [hkk])]
  | cons kv rest ih =>
      obtain ⟨k₀, v₀⟩ := kv
      by_cases h0 : k₀ = k
      · subst h0
        have hset : dictSet ((k₀, v₀) :: rest) k₀ v = (k₀, v) :: rest := by
          simp [dictSet]
        rw [hset]
        unfold dictGet?
        rw [List.find?_cons_of_neg _ (by simp [hkk]),
          List.find?_cons_of_neg _ (by simp [hkk])]
      · have hset : dictSet ((k₀, v₀) :: rest) k v
            = (k₀, v₀) :: dictSet rest k v := by
          simp [dictSet, h0]
        rw [hset]
        unfold dictGet? at ih ⊢
        by_cases h1 : k₀ = k'
        · subst h1
          rw [List.find?_cons_of_pos _ (by simp),
            List.find?_cons_of_pos _ (by simp)]
        · rw [List.find?_cons_of_neg _ (by simp [h1]),
            List.find?_cons_of_neg _ (by simp [h1])]
          exact ih

/-- C8: after stage 4, if the stage-2 text contains any `MISMATCH_TERMS`
member (case-insensitively) and the final result's warning flag is not
set, the sequencer forces `warning_flag = "Visual-Numeric Mismatch"` and
overwrites `confidence_level` with the low-confidence mismatch label,
overriding whatever confidence the result carried. -/
theorem c8_visual_mismatch (s2 : PyStr) (kvs : List (PyStr × PyVal))
    (hterm : ∃ term ∈ MISMATCH_TERMS, term <:+: lowerStr s2)
    (hwf : warningFlagIsNone (.vdict kvs) = true) :
    ∃ kvs', applyMismatchCheck s2 (.vdict kvs) = .vdict kvs'
      ∧ dictGet? kvs' "warning_flag".toList
          = some (.vstr "Visual-Numeric Mismatch".toList)
      ∧ dictGet? kvs' "confidence_level".toList
          = some (.vstr "Low (Visual Mismatch)".toList) := by
  have hany : MISMATCH_TERMS.any (fun term => isSubstring term (lowerStr s2))
      = true := by
    rw [List.any_eq_true]
    obtain ⟨term, hmem, hinf⟩ := hterm
    exact ⟨term, hmem, isSubstring_iff_isInfix.mpr hinf⟩
  refine ⟨dictSet (dictSet kvs "warning_flag".toList
      (.vstr "Visual-Numeric Mismatch".toList)) "confidence_level".toList
      (.vstr "Low (Visual Mismatch)".toList), ?_, ?_, ?_⟩
  · simp only [applyMismatchCheck, hany, hwf, Bool.and_self, if_true]
    rfl
  · rw [dictGet?_dictSet_ne _ _ _ _ (by decide)]
    exact dictGet?_dictSet_self _ _ _
  · exact dictGet?_dictSet_self _ _ _

/-- C8 witness: a stage-2 text reporting a discrepancy downgrades a
`High` confidence result with no warning flag. -/
theorem c8_witness :
    ∃ kvs', applyMismatchCheck "shows a discrepancy here".toList
        (.vdict [("confidence_level".toList, .vstr "High".toList)])
        = .vdict kvs'
      ∧ dictGet? kvs' "warning_flag".toList
          = some (.vstr "Visual-Numeric Mismatch".toList)
      ∧ dictGet? kvs' "confidence_level".toList
          = some (.vstr "Low (Visual Mismatch)".toList) :=
  c8_visual_mismatch "shows a discrepancy here".toList
    [("confidence_level".toList, .vstr "High".toList)]
    ⟨"discrepancy".toList, by decide,
      ⟨"shows a ".toList, " here".toList, rfl⟩⟩ rfl

/- ==================================================================
C10 — the numeric-token regex needs two digit characters.
================================================================== -/

theorem take_takeWhile (s : PyStr) (p : Char → Bool) :
    s.take (s.takeWhile p).length = s.takeWhile p :=
  (List.prefix_iff_eq_take.mp (List.takeWhile_prefix p)).symm

theorem filter_takeWhile (s : PyStr) (p : Char → Bool) :
    (s.takeWhile p).filter p = s.takeWhile p :=
  List.filter_eq_self.mpr (fun _ hx => List.mem_takeWhile_imp hx)

theorem matchNumLen_digits {s : PyStr} {l : Nat}
    (h : matchNumLen s = some l) :
    2 ≤ ((s.take l).filter Char.isDigit).length := by
  simp only [matchNumLen] at h
  by_cases h0 : (s.takeWhile Char.isDigit).length = 0
  · rw [if_pos h0] at h
    exact absurd h (by simp)
  · rw [if_neg h0] at h
    have hT : s.take (s.takeWhile Char.isDigit).length = s.takeWhile Char.isDigit :=
      take_takeWhile s Char.isDigit
    have hTfilter := filter_takeWhile s Char.isDigit
    split at h
    · rename_i rest2 heq
      by_cases h2 : (rest2.takeWhile Char.isDigit).length ≠ 0
      · rw [if_pos h2] at h
        simp only [Option.some.injEq] at h
        subst h
        have hdot : ('.' :: rest2).take (1 + (rest2.takeWhile Char.isDigit).length)
            = '.' :: rest2.take (rest2.takeWhile Char.isDigit).length := by
          rw [Nat.add_comm, List.take_succ_cons]
        have hsplit : s.take ((s.takeWhile Char.isDigit).length + 1
            + (rest2.takeWhile Char.isDigit).length)
            = s.takeWhile Char.isDigit
              ++ '.' :: rest2.takeWhile Char.isDigit := by
          rw [Nat.add_assoc, List.take_add, hT, heq, hdot, take_takeWhile]
        rw [hsplit, List.filter_append, hTfilter]
        rw [List.filter_cons_of_neg (by decide), filter_takeWhile]
        simp only [List.length_append]
        omega
      · rw [if_neg h2] at h
        split at h
        · rename_i h2le
          simp only [Option.some.injEq] at h
          subst h
          rw [hT, hTfilter]
          exact h2le
        · exact absurd h (by simp)
    · split at h
      · rename_i h2le
        simp only [Option.some.injEq] at h
        subst h
        rw [hT, hTfilter]
        exact h2le
      · exact absurd h (by simp)

theorem matchTokenLen_digits {s : PyStr} {l : Nat}
    (h : matchTokenLen s = some l) :
    2 ≤ ((s.take l).filter Char.isDigit).length := by
  match s with
  | [] => exact absurd h (by simp [matchTokenLen])
  | c :: rest =>
      rw [show matchTokenLen (c :: rest)
          = if c = '-' then (matchNumLen rest).map (· + 1)
            else matchNumLen (c :: rest) from rfl] at h
      by_cases hc : c = '-'
      · rw [if_pos hc] at h
        obtain ⟨l', hm, rfl⟩ := Option.map_eq_some'.mp h
        subst hc
        have : ('-' :: rest).take (l' + 1) = '-' :: rest.take l' := rfl
        rw [this, List.filter_cons_of_neg (by decide)]
        exact matchNumLen_digits hm
      · rw [if_neg hc] at h
        exact matchNumLen_digits h

theorem findallGo_digits :
    ∀ (fuel : Nat) (s t : PyStr), t ∈ findallGo fuel s →
      2 ≤ (t.filter Char.isDigit).length := by
  intro fuel
  induction fuel with
  | zero =>
      intro s t h
      simp [findallGo] at h
  | succ f ih =>
      intro s t h
      match s with
      | [] => simp [findallGo] at h
      | c :: rest =>
          rw [show findallGo (f + 1) (c :: rest)
              = match matchTokenLen (c :: rest) with
                | some l =>
                    (c :: rest).take l :: findallGo f ((c :: rest).drop l)
                | none => findallGo f rest from rfl] at h
          cases hm : matchTokenLen (c :: rest) with
          | some l =>
              rw [hm] at h
              rcases List.mem_cons.mp h with rfl | hmem
              · exact matchTokenLen_digits hm
              · exact ih _ _ hmem
          | none =>
              rw [hm] at h
              exact ih _ _ h

/-- C10: the numeric-token extraction shared by the allow-list builder
and the final-object scan (`re.findall(r"-?\d+\.?\d+", ·)`) only ever
matches tokens containing at least two digit characters; a standalone
single-digit number such as the `7` in a rationale-style string is never
extracted, so it can be neither flagged as unauthorized nor added to the
allow-list. -/
theorem c10_two_digit_tokens :
    (∀ (s t : PyStr), t ∈ findallNum s → 2 ≤ (t.filter Char.isDigit).length)
    ∧ findallNum "Hippocampal atrophy Z < 7".toList = []
    ∧ strNums "Hippocampal atrophy Z < 7".toList = [] := by
  refine ⟨?_, rfl, rfl⟩
  intro s t h
  exact findallGo_digits s.length s t h

/-- C10 witness: a genuine token of the scanner has two digit
characters. -/
theorem c10_witness :
    "-2.0".toList ∈ findallNum "Z < -2.0".toList
    ∧ 2 ≤ (("-2.0".toList).filter Char.isDigit).length :=
  ⟨by decide,
   c10_two_digit_tokens.1 "Z < -2.0".toList "-2.0".toList (by decide)⟩

/- ==================================================================
C1, stage A — how the token scanner treats the fallback's strings.
================================================================== -/

theorem matchNumLen_nil : matchNumLen [] = none := rfl

theorem matchNumLen_cons_of_nodigit {c : Char} (t : PyStr)
    (hc : c.isDigit = false) : matchNumLen (c :: t) = none := by
  simp only [matchNumLen]
  rw [List.takeWhile_cons_of_neg (by simp [hc])]
  rfl

theorem matchNumLen_none_of_head_nodigit (t : PyStr)
    (h : ∀ c ∈ t.head?, c.isDigit = false) : matchNumLen t = none := by
  cases t with
  | nil => rfl
  | cons c r => exact matchNumLen_cons_of_nodigit r (h c rfl)

theorem matchTokenLen_cons_unfold (c : Char) (t : PyStr) :
    matchTokenLen (c :: t)
      = if c = '-' then (matchNumLen t).map (· + 1)
        else matchNumLen (c :: t) := rfl

/-- Scanning past characters that are neither digits nor `'-'` finds
nothing in them and continues into the remainder. -/
theorem findall_append_clean (l s : PyStr)
    (h : ∀ c ∈ l, c.isDigit = false ∧ c ≠ '-') :
    findallNum (l ++ s) = findallNum s := by
  induction l with
  | nil => rfl
  | cons c l' ih =>
      have hc := h c (List.mem_cons_self c l')
      have hrest : ∀ x ∈ l', x.isDigit = false ∧ x ≠ '-' :=
        fun x hx => h x (List.mem_cons_of_mem c hx)
      rw [List.cons_append, findallNum_cons]
      have hm : matchTokenLen (c :: (l' ++ s)) = none := by
        rw [matchTokenLen_cons_unfold, if_neg hc.2]
        exact matchNumLen_cons_of_nodigit _ hc.1
      rw [hm]
      exact ih hrest

/-- A fully digit-free string yields no tokens at all. -/
theorem findall_nil_of_nodigit (l : PyStr)
    (h : ∀ c ∈ l, c.isDigit = false) : findallNum l = [] := by
  induction l with
  | nil => rfl
  | cons c l' ih =>
      have hrest : ∀ x ∈ l', x.isDigit = false :=
        fun x hx => h x (List.mem_cons_of_mem c hx)
      rw [findallNum_cons]
      have hm : matchTokenLen (c :: l') = none := by
        rw [matchTokenLen_cons_unfold]
        by_cases hcm : c = '-'
        · rw [if_pos hcm]
          rw [matchNumLen_none_of_head_nodigit l' ?_]
          · rfl
          · intro x hx
            cases l' with
            | nil => exact absurd hx (by simp)
            | cons a r =>
                have hax : a = x := by simpa using hx
                exact hax ▸ hrest a (List.mem_cons_self a r)
        · rw [if_neg hcm]
          exact matchNumLen_cons_of_nodigit _ (h c (List.mem_cons_self c l'))
      rw [hm]
      exact ih hrest

theorem takeWhile_append_not (p : Char → Bool) (I t : PyStr)
    (hI : ∀ c ∈ I, p c = true) (ht : ∀ c ∈ t.head?, p c = false) :
    (I ++ t).takeWhile p = I := by
  induction I with
  | nil =>
      cases t with
      | nil => rfl
      | cons c r =>
          have hc := ht c rfl
          simp [List.takeWhile_cons_of_neg, hc]
  | cons a I' ih =>
      rw [List.cons_append,
        List.takeWhile_cons_of_pos (hI a (List.mem_cons_self a I')),
        ih (fun c hc => hI c (List.mem_cons_of_mem a hc))]

/-- The regex matches exactly a `digits.digits` block when the next
character is not a digit. -/
theorem matchNumLen_token (I F rest : PyStr)
    (hIall : ∀ c ∈ I, c.isDigit = true) (hIne : I ≠ [])
    (hFall : ∀ c ∈ F, c.isDigit = true) (hFne : F ≠ [])
    (hrest : ∀ c ∈ rest.head?, c.isDigit = false) :
    matchNumLen (I ++ '.' :: (F ++ rest))
      = some (I.length + 1 + F.length) := by
  have h1 : (I ++ '.' :: (F ++ rest)).takeWhile Char.isDigit = I :=
    takeWhile_append_not _ I _ hIall
      (by intro c hc
          have hdc : '.' = c := by simpa using hc
          rw [← hdc]
          decide)
  have h3 : (F ++ rest).takeWhile Char.isDigit = F :=
    takeWhile_append_not _ F rest hFall hrest
  simp only [matchNumLen, h1]
  rw [if_neg (fun hx => hIne (List.length_eq_zero.mp hx)),
    List.drop_left' rfl]
  simp only [h3]
  rw [if_pos (fun hx => hFne (List.length_eq_zero.mp hx))]

/-- The regex matches exactly an optionally signed `digits.digits`
token when the next character is not a digit. -/
theorem matchTokenLen_token (sgn I F rest : PyStr)
    (hsgn : sgn = [] ∨ sgn = ['-'])
    (hIall : ∀ c ∈ I, c.isDigit = true) (hIne : I ≠ [])
    (hFall : ∀ c ∈ F, c.isDigit = true) (hFne : F ≠ [])
    (hrest : ∀ c ∈ rest.head?, c.isDigit = false) :
    matchTokenLen ((sgn ++ I ++ '.' :: F) ++ rest)
      = some (sgn ++ I ++ '.' :: F).length := by
  rcases hsgn with rfl | rfl
  · obtain ⟨i, I', rfl⟩ : ∃ i I', I = i :: I' := by
      cases I with
      | nil => exact absurd rfl hIne
      | cons i I' => exact ⟨i, I', rfl⟩
    have hi : i.isDigit = true := hIall i (List.mem_cons_self i I')
    have hne : i ≠ '-' := by
      intro he
      rw [he] at hi
      exact absurd hi (by decide)
    have hform : (([] ++ (i :: I') ++ '.' :: F) ++ rest)
        = i :: (I' ++ '.' :: (F ++ rest)) := by simp
    rw [hform, matchTokenLen_cons_unfold, if_neg hne]
    rw [show (i :: (I' ++ '.' :: (F ++ rest)))
        = (i :: I') ++ '.' :: (F ++ rest) from rfl]
    rw [matchNumLen_token (i :: I') F rest hIall (by simp) hFall hFne hrest]
    simp only [Option.some.injEq, List.nil_append, List.length_append,
      List.length_cons, List.length_nil]
    omega
  · have hform : ((['-'] ++ I ++ '.' :: F) ++ rest)
        = '-' :: (I ++ '.' :: (F ++ rest)) := by simp
    rw [hform, matchTokenLen_cons_unfold, if_pos rfl,
      matchNumLen_token I F rest hIall hIne hFall hFne hrest]
    simp only [Option.map_some', Option.some.injEq, List.cons_append,
      List.nil_append, List.length_append, List.length_cons, List.length_nil]
    omega

/-- A token at the head of the scan is emitted whole, and the scan
resumes right after it. -/
theorem findall_cons_of_token (tok rest : PyStr) (hne : tok ≠ [])
    (hm : matchTokenLen (tok ++ rest) = some tok.length) :
    findallNum (tok ++ rest) = tok :: findallNum rest := by
  cases tok with
  | nil => exact absurd rfl hne
  | cons c tk =>
      rw [List.cons_append, findallNum_cons]
      rw [show matchTokenLen (c :: (tk ++ rest)) = some (c :: tk).length from hm]
      show (c :: (tk ++ rest)).take (c :: tk).length
          :: findallNum ((c :: (tk ++ rest)).drop (c :: tk).length)
        = (c :: tk) :: findallNum rest
      rw [show (c :: (tk ++ rest)).take (c :: tk).length = c :: tk from
          List.take_left (c :: tk) rest]
      rw [show (c :: (tk ++ rest)).drop (c :: tk).length = rest from
          List.drop_left (c :: tk) rest]

/- ==================================================================
C1, stage B — decimal formatting parses back to the same value.
================================================================== -/

theorem natDigitsRev_cons (fuel m : Nat) :
    natDigitsRev (fuel + 1) (m + 1)
      = ((m + 1) % 10) :: natDigitsRev fuel ((m + 1) / 10) := rfl

theorem natDigitsRev_lt10 :
    ∀ (fuel n : Nat), ∀ d ∈ natDigitsRev fuel n, d < 10 := by
  intro fuel
  induction fuel with
  | zero => intro n d h; simp [natDigitsRev] at h
  | succ f ih =>
      intro n d h
      match n with
      | 0 => simp [natDigitsRev] at h
      | m + 1 =>
          rw [natDigitsRev_cons] at h
          rcases List.mem_cons.mp h with rfl | hm
          · omega
          · exact ih _ _ hm

theorem digitChar_isDigit (d : Nat) (hd : d < 10) :
    (Nat.digitChar d).isDigit = true := by
  interval_cases d <;> decide

theorem digitChar_val (d : Nat) (hd : d < 10) :
    digitVal (Nat.digitChar d) = d := by
  interval_cases d <;> decide

theorem parseNat_rev_digits :
    ∀ (fuel n : Nat), n ≤ fuel → ∀ a : Nat,
      ((natDigitsRev fuel n).reverse.map Nat.digitChar).foldl
          (fun acc c => 10 * acc + digitVal c) a
        = a * 10 ^ (natDigitsRev fuel n).length + n := by
  intro fuel
  induction fuel with
  | zero =>
      intro n h a
      have : n = 0 := by omega
      subst this
      simp [natDigitsRev]
  | succ f ih =>
      intro n h a
      match n with
      | 0 => simp [natDigitsRev]
      | m + 1 =>
          rw [natDigitsRev_cons, List.reverse_cons, List.map_append,
            List.foldl_append]
          rw [ih ((m + 1) / 10) (by
            have := Nat.div_lt_self (Nat.succ_pos m) (by norm_num : 1 < 10)
            omega) a]
          simp only [List.map_cons, List.map_nil, List.foldl_cons,
            List.foldl_nil, List.length_cons]
          rw [digitChar_val ((m + 1) % 10) (by omega)]
          have hsplit : (m + 1) = 10 * ((m + 1) / 10) + (m + 1) % 10 := by
            omega
          calc 10 * (a * 10 ^ (natDigitsRev f ((m + 1) / 10)).length
                  + (m + 1) / 10) + (m + 1) % 10
              = a * (10 ^ (natDigitsRev f ((m + 1) / 10)).length * 10)
                + (10 * ((m + 1) / 10) + (m + 1) % 10) := by ring
            _ = a * 10 ^ ((natDigitsRev f ((m + 1) / 10)).length + 1)
                + (m + 1) := by rw [← pow_succ, ← hsplit]

theorem parseNat_natDigitChars (n : Nat) :
    parseNat (natDigitChars n) = n := by
  by_cases h : n = 0
  · subst h
    decide
  · unfold natDigitChars parseNat
    rw [if_neg h, ← List.map_reverse]
    rw [parseNat_rev_digits n n le_rfl 0]
    simp

theorem natDigitChars_isDigit (n : Nat) :
    ∀ c ∈ natDigitChars n, c.isDigit = true := by
  intro c hc
  unfold natDigitChars at hc
  by_cases h : n = 0
  · rw [if_pos h] at hc
    have : c = '0' := by simpa using hc
    subst this
    decide
  · rw [if_neg h] at hc
    rw [List.mem_reverse] at hc
    obtain ⟨d, hd, rfl⟩ := List.mem_map.mp hc
    exact digitChar_isDigit d (natDigitsRev_lt10 n n d hd)

theorem natDigitChars_ne_nil (n : Nat) : natDigitChars n ≠ [] := by
  unfold natDigitChars
  by_cases h : n = 0
  · rw [if_pos h]
    simp
  · rw [if_neg h]
    match n, h with
    | m + 1, _ =>
        rw [natDigitsRev_cons]
        simp

theorem natDigitsRev_length_le :
    ∀ (fuel v k : Nat), v < 10 ^ k → (natDigitsRev fuel v).length ≤ k := by
  intro fuel
  induction fuel with
  | zero => intro v k _; simp [natDigitsRev]
  | succ f ih =>
      intro v k h
      match v with
      | 0 => simp [natDigitsRev]
      | m + 1 =>
          match k with
          | 0 =>
              rw [pow_zero] at h
              omega
          | k' + 1 =>
              rw [natDigitsRev_cons]
              simp only [List.length_cons]
              have hdiv : (m + 1) / 10 < 10 ^ k' := by
                rw [pow_succ] at h
                omega
              have := ih ((m + 1) / 10) k' hdiv
              omega

theorem natDigitChars_length_le (v k : Nat) (h1 : 1 ≤ k)
    (h2 : v < 10 ^ k) : (natDigitChars v).length ≤ k := by
  unfold natDigitChars
  by_cases h : v = 0
  · rw [if_pos h]
    simpa using h1
  · rw [if_neg h]
    simp only [List.length_reverse, List.length_map]
    exact natDigitsRev_length_le v v k h2

theorem parseNat_cons (c : Char) (t : PyStr) :
    parseNat (c :: t)
      = t.foldl (fun acc x => 10 * acc + digitVal x) (digitVal c) := by
  unfold parseNat
  rw [List.foldl_cons]
  norm_num

theorem parseNat_append_zeros (x : PyStr) (j : Nat) :
    parseNat (x ++ List.replicate j '0') = parseNat x * 10 ^ j := by
  induction j with
  | zero => simp [parseNat]
  | succ j ih =>
      rw [List.replicate_succ', ← List.append_assoc]
      unfold parseNat
      rw [List.foldl_append]
      have hz : digitVal '0' = 0 := by decide
      simp only [List.foldl_cons, List.foldl_nil, hz]
      unfold parseNat at ih
      rw [ih, pow_succ]
      ring

theorem parseNat_zeros_append (j : Nat) (x : PyStr) :
    parseNat (List.replicate j '0' ++ x) = parseNat x := by
  induction j with
  | zero => rfl
  | succ j ih =>
      rw [List.replicate_succ, List.cons_append]
      unfold parseNat
      rw [List.foldl_cons]
      have hz : (10 * 0 + digitVal '0') = 0 := by decide
      rw [hz]
      exact ih

theorem trimFrac_ne_nil (l : PyStr) : trimFrac l ≠ [] := by
  unfold trimFrac
  by_cases h : (l.reverse.dropWhile (fun c => decide (c = '0'))).isEmpty
  · rw [if_pos h]
    simp
  · rw [if_neg h]
    rw [List.isEmpty_iff] at h
    simpa using h

theorem trimFrac_isDigit (l : PyStr) (h : ∀ c ∈ l, c.isDigit = true) :
    ∀ c ∈ trimFrac l, c.isDigit = true := by
  intro c hc
  rw [show trimFrac l
      = (if (l.reverse.dropWhile (fun c => decide (c = '0'))).isEmpty then
          (['0'] : PyStr)
        else (l.reverse.dropWhile (fun c => decide (c = '0'))).reverse)
    from rfl] at hc
  by_cases hblank : (l.reverse.dropWhile (fun c => decide (c = '0'))).isEmpty
  · rw [if_pos hblank] at hc
    have : c = '0' := by simpa using hc
    subst this
    decide
  · rw [if_neg hblank] at hc
    rw [List.mem_reverse] at hc
    have hsub : c ∈ l.reverse :=
      (List.dropWhile_suffix (fun c => decide (c = '0'))).subset hc
    exact h c (List.mem_reverse.mp hsub)

theorem parseNat_eq_zero_of_all_zero (l : PyStr)
    (h : ∀ c ∈ l, c = '0') : parseNat l = 0 := by
  have : l = List.replicate l.length '0' := List.eq_replicate_of_mem h
  rw [this]
  have := parseNat_zeros_append l.length []
  simpa using this

theorem trimFrac_value (l : PyStr) :
    (parseNat (trimFrac l) : ℚ) / 10 ^ (trimFrac l).length
      = (parseNat l : ℚ) / 10 ^ l.length := by
  unfold trimFrac
  by_cases h : (l.reverse.dropWhile (fun c => decide (c = '0'))).isEmpty
  · rw [if_pos h]
    rw [List.isEmpty_iff] at h
    have hall : ∀ c ∈ l, c = '0' := by
      intro c hc
      have hcrev : c ∈ l.reverse := List.mem_reverse.mpr hc
      have hsplit := List.takeWhile_append_dropWhile
        (p := fun c => decide (c = '0')) (l := l.reverse)
      rw [h, List.append_nil] at hsplit
      rw [← hsplit] at hcrev
      have := List.mem_takeWhile_imp hcrev
      simpa using this
    rw [parseNat_eq_zero_of_all_zero l hall]
    have h0 : parseNat ['0'] = 0 := by decide
    rw [h0]
    norm_num
  · rw [if_neg h]
    set r := l.reverse.dropWhile (fun c => decide (c = '0')) with hr
    set T := l.reverse.takeWhile (fun c => decide (c = '0')) with hT
    have hsplit : l.reverse = T ++ r := by
      rw [hT, hr, List.takeWhile_append_dropWhile]
    have hTzero : T = List.replicate T.length '0' := by
      apply List.eq_replicate_of_mem
      intro c hc
      have := List.mem_takeWhile_imp (hT ▸ hc)
      simpa using this
    have hl : l = r.reverse ++ List.replicate T.length '0' := by
      have : l = (T ++ r).reverse := by rw [← hsplit, List.reverse_reverse]
      rw [this, List.reverse_append]
      congr 1
      rw [hTzero, List.reverse_replicate]
      simp
    rw [hl, parseNat_append_zeros]
    have hlen : (r.reverse ++ List.replicate T.length '0').length
        = r.length + T.length := by
      simp
    rw [hlen]
    push_cast
    rw [pow_add]
    have h10 : ((10 : ℚ) ^ T.length) ≠ 0 := by positivity
    field_simp
    ring

theorem parseUnsignedTok_token (I F : PyStr)
    (hIall : ∀ c ∈ I, c.isDigit = true) (hIne : I ≠ [])
    (hFall : ∀ c ∈ F, c.isDigit = true) (hFne : F ≠ []) :
    parseUnsignedTok (I ++ '.' :: F)
      = some ((parseNat I : ℚ) + (parseNat F : ℚ) / 10 ^ F.length) := by
  have h1 : (I ++ '.' :: F).takeWhile Char.isDigit = I :=
    takeWhile_append_not _ I _ hIall
      (by intro c hc
          have hdc : '.' = c := by simpa using hc
          rw [← hdc]
          decide)
  simp only [parseUnsignedTok, h1]
  rw [List.drop_left' rfl]
  have hFd : allDigits F = true := by
    rw [allDigits, List.all_eq_true]
    intro c hc
    exact hFall c hc
  simp [hIne, hFne, hFd, List.isEmpty_iff]

theorem decChars_eq (k : Nat) (n : ℤ) :
    decChars k ((n : ℚ) / 10 ^ k)
      = (if n < 0 then ['-'] else []) ++ natDigitChars (n.natAbs / 10 ^ k)
        ++ '.' :: trimFrac (List.replicate
            (k - (natDigitChars (n.natAbs % 10 ^ k)).length) '0'
          ++ natDigitChars (n.natAbs % 10 ^ k)) := by
  have hfloor : ⌊(n : ℚ) / 10 ^ k * 10 ^ k⌋ = n := by
    rw [div_mul_cancel₀ _ (by positivity : ((10 : ℚ) ^ k) ≠ 0)]
    exact Int.floor_intCast n
  simp only [decChars, hfloor]

theorem fracPadded_isDigit (k v : Nat) :
    ∀ c ∈ (List.replicate (k - (natDigitChars v).length) '0'
      ++ natDigitChars v), c.isDigit = true := by
  intro c hc
  rcases List.mem_append.mp hc with hz | hd
  · have : c = '0' := List.eq_of_mem_replicate hz
    subst this
    decide
  · exact natDigitChars_isDigit v c hd

theorem decChars_parse_core (k m : Nat) (hk : 1 ≤ k) :
    parseUnsignedTok (natDigitChars (m / 10 ^ k) ++ '.' ::
        trimFrac (List.replicate (k - (natDigitChars (m % 10 ^ k)).length) '0'
          ++ natDigitChars (m % 10 ^ k)))
      = some ((m : ℚ) / 10 ^ k) := by
  rw [parseUnsignedTok_token _ _ (natDigitChars_isDigit _)
    (natDigitChars_ne_nil _) (trimFrac_isDigit _ (fracPadded_isDigit k _))
    (trimFrac_ne_nil _)]
  rw [trimFrac_value, parseNat_zeros_append, parseNat_natDigitChars,
    parseNat_natDigitChars]
  have hpadlen : (List.replicate (k - (natDigitChars (m % 10 ^ k)).length) '0'
      ++ natDigitChars (m % 10 ^ k)).length = k := by
    have hlt : m % 10 ^ k < 10 ^ k := Nat.mod_lt _ (by positivity)
    have := natDigitChars_length_le (m % 10 ^ k) k hk hlt
    simp only [List.length_append, List.length_replicate]
    omega
  rw [hpadlen]
  congr 1
  have hnat : (m / 10 ^ k) * 10 ^ k + m % 10 ^ k = m := by
    rw [mul_comm]
    exact Nat.div_add_mod m (10 ^ k)
  rw [eq_div_iff (by positivity : ((10 : ℚ) ^ k) ≠ 0), add_mul,
    div_mul_cancel₀ _ (by positivity : ((10 : ℚ) ^ k) ≠ 0)]
  exact_mod_cast hnat

theorem parseTok_cons_unfold (c : Char) (t : PyStr) :
    parseTok (c :: t)
      = if c = '-' then (parseUnsignedTok t).map (fun q => -q)
        else parseUnsignedTok (c :: t) := rfl

/-- The 3-decimal strings the fallback prints: shape and value.  For any
integer `n`, `decChars k (n / 10^k)` is an optionally signed
`digits.digits` token that `float()` parses back to exactly `n / 10^k`. -/
theorem decChars_spec (k : Nat) (n : ℤ) (hk : 1 ≤ k) :
    ∃ sgn I F : PyStr,
      decChars k ((n : ℚ) / 10 ^ k) = sgn ++ I ++ '.' :: F
      ∧ (sgn = [] ∨ sgn = ['-'])
      ∧ I ≠ [] ∧ (∀ c ∈ I, c.isDigit = true)
      ∧ F ≠ [] ∧ (∀ c ∈ F, c.isDigit = true)
      ∧ parseTok (sgn ++ I ++ '.' :: F) = some ((n : ℚ) / 10 ^ k) := by
  refine ⟨(if n < 0 then ['-'] else []), natDigitChars (n.natAbs / 10 ^ k),
    trimFrac (List.replicate
        (k - (natDigitChars (n.natAbs % 10 ^ k)).length) '0'
      ++ natDigitChars (n.natAbs % 10 ^ k)),
    decChars_eq k n, by split <;> simp, natDigitChars_ne_nil _,
    natDigitChars_isDigit _,
    trimFrac_ne_nil _, trimFrac_isDigit _ (fracPadded_isDigit k _), ?_⟩
  by_cases hn : n < 0
  · rw [if_pos hn]
    rw [show ((['-'] : PyStr) ++ natDigitChars (n.natAbs / 10 ^ k)
        ++ '.' :: trimFrac (List.replicate
            (k - (natDigitChars (n.natAbs % 10 ^ k)).length) '0'
          ++ natDigitChars (n.natAbs % 10 ^ k)))
      = '-' :: (natDigitChars (n.natAbs / 10 ^ k)
        ++ '.' :: trimFrac (List.replicate
            (k - (natDigitChars (n.natAbs % 10 ^ k)).length) '0'
          ++ natDigitChars (n.natAbs % 10 ^ k))) from by simp]
    rw [parseTok_cons_unfold, if_pos rfl, decChars_parse_core k n.natAbs hk]
    rw [Option.map_some', Option.some.injEq]
    have habs : ((n.natAbs : ℕ) : ℚ) = -(n : ℚ) := by
      rw [Int.cast_natAbs, Int.cast_abs]
      exact abs_of_neg (by exact_mod_cast hn : (n : ℚ) < 0)
    rw [habs]
    ring
  · rw [if_neg hn]
    have hIne := natDigitChars_ne_nil (n.natAbs / 10 ^ k)
    obtain ⟨i, I', hI⟩ : ∃ i I',
        natDigitChars (n.natAbs / 10 ^ k) = i :: I' := by
      cases hI : natDigitChars (n.natAbs / 10 ^ k) with
      | nil => exact absurd hI hIne
      | cons i I' => exact ⟨i, I', rfl⟩
    have hi : i.isDigit = true :=
      natDigitChars_isDigit _ i (by rw [hI]; exact List.mem_cons_self i I')
    have hine : i ≠ '-' := by
      intro he
      rw [he] at hi
      exact absurd hi (by decide)
    rw [List.nil_append, hI, List.cons_append, parseTok_cons_unfold,
      if_neg hine, ← List.cons_append, ← hI, decChars_parse_core k n.natAbs hk]
    congr 2
    rw [Int.cast_natAbs, Int.cast_abs]
    exact abs_of_nonneg (by exact_mod_cast (le_of_not_lt hn) : (0 : ℚ) ≤ n)

/- ==================================================================
C1, stage C — rounding stays within the tolerance.
================================================================== -/

theorem pyRoundInt_close (x : ℚ) :
    |((pyRoundInt x : ℤ) : ℚ) - x| ≤ 1 / 2 := by
  have h0 : ((⌊x⌋ : ℤ) : ℚ) ≤ x := Int.floor_le x
  have h1 : x < ⌊x⌋ + 1 := Int.lt_floor_add_one x
  simp only [pyRoundInt]
  split_ifs with hf1 hf2 hf3 <;>
    · rw [abs_le]
      constructor <;> push_cast at * <;> linarith

theorem round3_close (v : ℚ) : |round3 v - v| ≤ 1 / 2000 := by
  have h := pyRoundInt_close (v * 1000)
  have heq : round3 v - v
      = (((pyRoundInt (v * 1000) : ℤ) : ℚ) - v * 1000) / 1000 := by
    unfold round3
    ring
  rw [heq, abs_div, abs_of_pos (by norm_num : (0 : ℚ) < 1000)]
  rw [div_le_iff₀ (by norm_num : (0 : ℚ) < 1000)]
  linarith

theorem round3_near (v : ℚ) : |round3 v - v| ≤ NUMERIC_TOLERANCE := by
  have := round3_close v
  rw [show NUMERIC_TOLERANCE = 5 / 100 from rfl]
  linarith

theorem py_isclose_round3 (v : ℚ) :
    py_isclose (round3 v) v 0 NUMERIC_TOLERANCE = true := by
  unfold py_isclose
  rw [decide_eq_true_eq, zero_mul,
    max_eq_right (by norm_num [NUMERIC_TOLERANCE] : (0 : ℚ) ≤ NUMERIC_TOLERANCE)]
  exact round3_near v

theorem round3_div_form (v : ℚ) :
    round3 v = ((pyRoundInt (v * 1000) : ℤ) : ℚ) / 10 ^ 3 := by
  unfold round3
  norm_num

/- ==================================================================
C1, stage D — the tokens of a fallback interpretation string.
================================================================== -/

theorem findall_token_block (tok rest : PyStr)
    (h : ∃ sgn I F : PyStr, tok = sgn ++ I ++ '.' :: F
      ∧ (sgn = [] ∨ sgn = ['-']) ∧ I ≠ [] ∧ (∀ c ∈ I, c.isDigit = true)
      ∧ F ≠ [] ∧ (∀ c ∈ F, c.isDigit = true))
    (hrest : ∀ c ∈ rest.head?, c.isDigit = false) :
    findallNum (tok ++ rest) = tok :: findallNum rest := by
  obtain ⟨sgn, I, F, rfl, hsgn, hIne, hIall, hFne, hFall⟩ := h
  apply findall_cons_of_token
  · rcases hsgn with rfl | rfl <;> simp
  · exact matchTokenLen_token sgn I F rest hsgn hIall hIne hFall hFne hrest

theorem roiTitle_clean :
    ∀ roi ∈ ALLOWED_ROIS,
      ∀ c ∈ roiTitle roi, c.isDigit = false ∧ c ≠ '-' := by
  decide

/-- The only numeric tokens of a fallback interpretation string are the
two printed metrics, and they parse back to the printed values. -/
theorem strNums_interpString (roi : PyStr) (hroi : roi ∈ ALLOWED_ROIS)
    (qa qz : ℚ) (a z : ℤ)
    (ha : qa = (a : ℚ) / 10 ^ 3) (hz : qz = (z : ℚ) / 10 ^ 3) :
    strNums (interpString roi qa qz) = [qa, qz] := by
  subst ha
  subst hz
  obtain ⟨sa, Ia, Fa, hEqA, hsgnA, hIneA, hIallA, hFneA, hFallA, hParseA⟩ :=
    decChars_spec 3 a (by norm_num)
  obtain ⟨sz, Iz, Fz, hEqZ, hsgnZ, hIneZ, hIallZ, hFneZ, hFallZ, hParseZ⟩ :=
    decChars_spec 3 z (by norm_num)
  have hfind : findallNum (interpString roi ((a : ℚ) / 10 ^ 3) ((z : ℚ) / 10 ^ 3))
      = [decChars 3 ((a : ℚ) / 10 ^ 3), decChars 3 ((z : ℚ) / 10 ^ 3)] := by
    unfold interpString
    simp only [List.append_assoc]
    rw [findall_append_clean _ _ (roiTitle_clean roi hroi),
      findall_append_clean ": annual change ".toList _ (by decide)]
    rw [findall_token_block _ _
      ⟨sa, Ia, Fa, hEqA, hsgnA, hIneA, hIallA, hFneA, hFallA⟩
      (by intro c hc
          have hh : (("% per year (Z = ".toList : PyStr)
              ++ (decChars 3 ((z : ℚ) / 10 ^ 3) ++ ").".toList)).head?
              = some '%' := rfl
          rw [hh] at hc
          have : '%' = c := by simpa using hc
          rw [← this]
          decide)]
    rw [findall_append_clean "% per year (Z = ".toList _ (by decide)]
    rw [findall_token_block _ _
      ⟨sz, Iz, Fz, hEqZ, hsgnZ, hIneZ, hIallZ, hFneZ, hFallZ⟩
      (by intro c hc
          have hh : ((").".toList : PyStr)).head? = some ')' := rfl
          rw [hh] at hc
          have : ')' = c := by simpa using hc
          rw [← this]
          decide)]
    rw [findall_nil_of_nodigit ").".toList (by decide)]
  unfold strNums
  rw [hfind]
  have hpa : parseTok (decChars 3 ((a : ℚ) / 10 ^ 3)) = some ((a : ℚ) / 10 ^ 3) := by
    rw [hEqA]
    exact hParseA
  have hpz : parseTok (decChars 3 ((z : ℚ) / 10 ^ 3)) = some ((z : ℚ) / 10 ^ 3) := by
    rw [hEqZ]
    exact hParseZ
  simp [List.filterMap, hpa, hpz]

/- ==================================================================
C1, stage E — every number of the fallback object is authorized.
================================================================== -/

theorem extractNumsDict_map (l : List PyStr) (f : PyStr → PyVal) :
    extractNumsDict (l.map fun x => (x, f x))
      = l.flatMap (fun x => extractNums (f x)) := by
  induction l with
  | nil => rfl
  | cons a r ih =>
      simp only [List.map_cons, extractNumsDict, ih, List.flatMap_cons]

theorem extractNumsList_map_vstr (l : List PyStr) :
    extractNumsList (l.map PyVal.vstr) = l.flatMap strNums := by
  induction l with
  | nil => rfl
  | cons a r ih =>
      simp only [List.map_cons, extractNumsList, extractNums, ih,
        List.flatMap_cons]

theorem flatMap_congr_mem {α β : Type} (l : List α) (f g : α → List β)
    (h : ∀ a ∈ l, f a = g a) : l.flatMap f = l.flatMap g := by
  induction l with
  | nil => rfl
  | cons a r ih =>
      rw [List.flatMap_cons, List.flatMap_cons, h a (List.mem_cons_self a r),
        ih (fun x hx => h x (List.mem_cons_of_mem a hx))]

theorem strNums_nil_of_nodigit (l : PyStr)
    (h : ∀ c ∈ l, c.isDigit = false) : strNums l = [] := by
  unfold strNums
  rw [findall_nil_of_nodigit l h]
  rfl

theorem extractNums_fallbackRoiEntry (p : Payload) (roi : PyStr)
    (hroi : roi ∈ ALLOWED_ROIS) :
    extractNums (fallbackRoiEntry p roi)
      = [round3 (p.roi_metrics roi).annual_percent_change,
         round3 (p.roi_metrics roi).z_score,
         round3 (p.roi_metrics roi).annual_percent_change,
         round3 (p.roi_metrics roi).z_score] := by
  unfold fallbackRoiEntry
  simp only [extractNums, extractNumsDict]
  rw [strNums_interpString roi hroi _ _
    (pyRoundInt ((p.roi_metrics roi).annual_percent_change * 1000))
    (pyRoundInt ((p.roi_metrics roi).z_score * 1000))
    (round3_div_form _) (round3_div_form _)]
  simp

set_option maxRecDepth 4000 in
theorem extractNums_fallback_eq (p : Payload) (s1 s2 s3 : PyStr)
    (hcls : ∀ c ∈ p.progression.cls, c.isDigit = false) :
    extractNums (deterministic_fallback p s1 s2 s3)
      = (ALLOWED_ROIS.flatMap fun roi =>
          [round3 (p.roi_metrics roi).annual_percent_change,
           round3 (p.roi_metrics roi).z_score,
           round3 (p.roi_metrics roi).annual_percent_change,
           round3 (p.roi_metrics roi).z_score])
        ++ (((p.progression.score : ℤ) : ℚ)
            :: p.progression.rationale.flatMap strNums) := by
  have hstep : extractNums (deterministic_fallback p s1 s2 s3)
      = extractNumsDict (ALLOWED_ROIS.map fun roi => (roi, fallbackRoiEntry p roi))
        ++ (strNums fallbackNarrative
        ++ ((strNums p.progression.cls
            ++ ([((p.progression.score : ℤ) : ℚ)]
            ++ (extractNumsList (p.progression.rationale.map PyVal.vstr) ++ [])))
        ++ (strNums "Low (fallback)".toList
            ++ ([] ++ ([] ++ ([] ++ [])))))) := rfl
  rw [hstep, extractNumsDict_map, extractNumsList_map_vstr]
  rw [flatMap_congr_mem ALLOWED_ROIS _ _ (extractNums_fallbackRoiEntry p)]
  rw [strNums_nil_of_nodigit fallbackNarrative (by decide),
    strNums_nil_of_nodigit "Low (fallback)".toList (by decide),
    strNums_nil_of_nodigit p.progression.cls hcls]
  simp

theorem apc_mem_allowed (p : Payload) (roi : PyStr)
    (h : roi ∈ ALLOWED_ROIS) :
    (p.roi_metrics roi).annual_percent_change ∈ allowed_numeric_values p := by
  unfold allowed_numeric_values
  exact List.mem_append_left _ (List.mem_append_left _
    (List.mem_flatMap.mpr ⟨roi, h, by simp⟩))

theorem z_mem_allowed (p : Payload) (roi : PyStr)
    (h : roi ∈ ALLOWED_ROIS) :
    (p.roi_metrics roi).z_score ∈ allowed_numeric_values p := by
  unfold allowed_numeric_values
  exact List.mem_append_left _ (List.mem_append_left _
    (List.mem_flatMap.mpr ⟨roi, h, by simp⟩))

theorem score_mem_allowed (p : Payload) :
    ((p.progression.score : ℤ) : ℚ) ∈ allowed_numeric_values p := by
  unfold allowed_numeric_values
  exact List.mem_append_left _ (List.mem_append_right _ (by simp))

theorem rationale_mem_allowed (p : Payload) (n : ℚ)
    (h : n ∈ p.progression.rationale.flatMap strNums) :
    n ∈ allowed_numeric_values p := by
  unfold allowed_numeric_values
  exact List.mem_append_right _ h

theorem numbers_within_allowed_eq_none (found allowed : List ℚ)
    (h : ∀ n ∈ found, ∃ a ∈ allowed, |n - a| ≤ NUMERIC_TOLERANCE) :
    numbers_within_allowed found allowed = none := by
  unfold numbers_within_allowed
  rw [List.find?_eq_none]
  intro x hx
  obtain ⟨a, ha, hle⟩ := h x hx
  have hany : allowed.any (fun a => decide (|x - a| ≤ NUMERIC_TOLERANCE))
      = true := by
    rw [List.any_eq_true]
    exact ⟨a, ha, decide_eq_true hle⟩
  simp [hany]

theorem self_near (x : ℚ) : |x - x| ≤ NUMERIC_TOLERANCE := by
  rw [sub_self, abs_zero, show NUMERIC_TOLERANCE = 5 / 100 from rfl]
  norm_num

theorem checkUnauthorized_fallback (p : Payload) (s1 s2 s3 : PyStr)
    (hcls : ∀ c ∈ p.progression.cls, c.isDigit = false) :
    checkUnauthorized (deterministic_fallback p s1 s2 s3) p = .ok () := by
  have hnone : numbers_within_allowed
      (extractNums (deterministic_fallback p s1 s2 s3))
      (allowed_numeric_values p) = none := by
    apply numbers_within_allowed_eq_none
    intro n hn
    rw [extractNums_fallback_eq p s1 s2 s3 hcls] at hn
    rcases List.mem_append.mp hn with hL | hR
    · obtain ⟨roi, hroi, hmem⟩ := List.mem_flatMap.mp hL
      simp only [List.mem_cons, List.not_mem_nil, or_false] at hmem
      rcases hmem with rfl | rfl | rfl | rfl
      · exact ⟨_, apc_mem_allowed p roi hroi, round3_near _⟩
      · exact ⟨_, z_mem_allowed p roi hroi, round3_near _⟩
      · exact ⟨_, apc_mem_allowed p roi hroi, round3_near _⟩
      · exact ⟨_, z_mem_allowed p roi hroi, round3_near _⟩
    · rcases List.mem_cons.mp hR with rfl | hrat
      · exact ⟨_, score_mem_allowed p, self_near _⟩
      · exact ⟨n, rationale_mem_allowed p n hrat, self_near n⟩
  unfold checkUnauthorized
  rw [hnone]

/- ==================================================================
C1, stage F — the remaining validator steps accept the fallback.
================================================================== -/

theorem thenE_ok {α : Type} (x : Except PyStr Unit) (y : Except PyStr α)
    (hx : x = .ok ()) : thenE x y = y := by
  unfold thenE
  rw [hx]

theorem dictGet?_map_self (l : List PyStr) (f : PyStr → PyVal) (k : PyStr)
    (h : k ∈ l) :
    dictGet? (l.map fun x => (x, f x)) k = some (f k) := by
  induction l with
  | nil => simp at h
  | cons a r ih =>
      by_cases hak : a = k
      · subst hak
        unfold dictGet?
        rw [List.map_cons, List.find?_cons_of_pos _ (by simp)]
        rfl
      · unfold dictGet? at ih ⊢
        rw [List.map_cons, List.find?_cons_of_neg _ (by simp [hak])]
        exact ih ((List.mem_cons.mp h).resolve_left (fun he => hak he.symm))

theorem payloadRoiVal_apc (p : Payload) (roi : PyStr) :
    payloadRoiVal p roi "annual_percent_change".toList
      = (p.roi_metrics roi).annual_percent_change := by
  unfold payloadRoiVal
  rw [if_pos rfl]

theorem payloadRoiVal_z (p : Payload) (roi : PyStr) :
    payloadRoiVal p roi "z_score".toList = (p.roi_metrics roi).z_score := by
  unfold payloadRoiVal
  rw [if_neg (by decide)]

theorem checkRoiNum_ok (p : Payload) (roi nk : PyStr)
    (ekvs : List (PyStr × PyVal)) (v : ℚ)
    (hlook : dictGet? ekvs nk = some (.vnum v))
    (hclose : py_isclose v (payloadRoiVal p roi nk) 0 NUMERIC_TOLERANCE
      = true) :
    checkRoiNum p roi nk (.vdict ekvs) = .ok () := by
  simp only [checkRoiNum, hlook, asFloat]
  rw [if_pos hclose]

theorem checkRois_fallback (p : Payload) :
    checkRois
      (.vdict (ALLOWED_ROIS.map fun roi => (roi, fallbackRoiEntry p roi)))
      p = .ok () := by
  unfold checkRois
  rw [forEachE_ok_iff]
  intro roi hroi
  rw [dictGet?_map_self ALLOWED_ROIS (fallbackRoiEntry p) roi hroi]
  rw [forEachE_ok_iff]
  intro nk hnk
  simp only [List.mem_cons, List.not_mem_nil, or_false] at hnk
  rcases hnk with rfl | rfl
  · exact checkRoiNum_ok p roi _ _ _ rfl
      (by rw [payloadRoiVal_apc]; exact py_isclose_round3 _)
  · exact checkRoiNum_ok p roi _ _ _
      (by rfl)
      (by rw [payloadRoiVal_z]; exact py_isclose_round3 _)

theorem pyIntQ_intCast (z : ℤ) : pyIntQ ((z : ℤ) : ℚ) = z := by
  unfold pyIntQ
  rw [Rat.num_intCast, Rat.den_intCast]
  simp

theorem checkClassification_ok (p : Payload) (ckvs : List (PyStr × PyVal))
    (h1 : dictGet? ckvs "class".toList = some (.vstr p.progression.cls))
    (h2 : dictGet? ckvs "score".toList
      = some (.vnum ((p.progression.score : ℤ) : ℚ)))
    (h3 : (dictGet? ckvs "rationale".toList).isSome = true) :
    checkClassification (.vdict ckvs) p = .ok () := by
  simp only [checkClassification, h1, h2, h3, Option.isSome_some,
    Bool.not_true, Bool.false_or, Bool.or_self, Bool.or_false,
    Bool.false_eq_true, if_false, Option.some_bind, pyIntOf,
    pyIntQ_intCast, ne_eq]
  rw [if_neg (fun hne => hne trivial), if_neg (fun hne => hne trivial)]

theorem checkClassification_fallback (p : Payload) :
    checkClassification
      (.vdict
        [("class".toList, .vstr p.progression.cls),
         ("score".toList, .vnum ((p.progression.score : ℤ) : ℚ)),
         ("rationale".toList,
            .vlist (p.progression.rationale.map .vstr))]) p = .ok () :=
  checkClassification_ok p _ rfl rfl rfl

/-- C1: for every payload satisfying the §3 invariants, the report built
by the deterministic fallback generator passes `_validate_final_json`:
all required top-level keys are present, every region's two numbers are
within 0.05 of the payload's, the classification class and score match,
and no number anywhere in the object is flagged as unauthorized by the
allow-list check.  The fallback path can never fail validation. -/
theorem c1_fallback_passes_validator (p : Payload) (s1 s2 s3 : PyStr)
    (hinv : PayloadInv p) :
    validate_final_json (deterministic_fallback p s1 s2 s3) p = .ok () := by
  have hcls : ∀ c ∈ p.progression.cls, c.isDigit = false := by
    rcases hinv with h | h <;> rw [h] <;> decide
  simp only [deterministic_fallback, validate_final_json]
  rw [thenE_ok _ _ (by
    rw [forEachE_ok_iff]
    intro k hk
    simp only [List.mem_cons, List.not_mem_nil, or_false] at hk
    rcases hk with rfl | rfl | rfl | rfl <;> rfl)]
  rw [thenE_ok _ _ (by
    rw [show (dictGet?
        [("roi_interpretations".toList,
            PyVal.vdict (ALLOWED_ROIS.map fun roi => (roi, fallbackRoiEntry p roi))),
         ("final_narrative".toList, PyVal.vstr fallbackNarrative),
         ("classification".toList,
            PyVal.vdict
              [("class".toList, PyVal.vstr p.progression.cls),
               ("score".toList, PyVal.vnum ((p.progression.score : ℤ) : ℚ)),
               ("rationale".toList,
                  PyVal.vlist (p.progression.rationale.map PyVal.vstr))]),
         ("confidence_level".toList, PyVal.vstr "Low (fallback)".toList),
         ("warning_flag".toList, PyVal.vnull),
         ("repair_attempted".toList, PyVal.vbool true),
         ("fallback_used".toList, PyVal.vbool true)]
        "roi_interpretations".toList).getD PyVal.vnull
      = PyVal.vdict (ALLOWED_ROIS.map fun roi => (roi, fallbackRoiEntry p roi))
      from rfl]
    exact checkRois_fallback p)]
  rw [thenE_ok _ _ (by
    rw [show (dictGet?
        [("roi_interpretations".toList,
            PyVal.vdict (ALLOWED_ROIS.map fun roi => (roi, fallbackRoiEntry p roi))),
         ("final_narrative".toList, PyVal.vstr fallbackNarrative),
         ("classification".toList,
            PyVal.vdict
              [("class".toList, PyVal.vstr p.progression.cls),
               ("score".toList, PyVal.vnum ((p.progression.score : ℤ) : ℚ)),
               ("rationale".toList,
                  PyVal.vlist (p.progression.rationale.map PyVal.vstr))]),
         ("confidence_level".toList, PyVal.vstr "Low (fallback)".toList),
         ("warning_flag".toList, PyVal.vnull),
         ("repair_attempted".toList, PyVal.vbool true),
         ("fallback_used".toList, PyVal.vbool true)]
        "classification".toList).getD PyVal.vnull
      = PyVal.vdict
          [("class".toList, PyVal.vstr p.progression.cls),
           ("score".toList, PyVal.vnum ((p.progression.score : ℤ) : ℚ)),
           ("rationale".toList,
              PyVal.vlist (p.progression.rationale.map PyVal.vstr))]
      from rfl]
    exact checkClassification_fallback p)]
  exact checkUnauthorized_fallback p s1 s2 s3 hcls

/-- C1 witness: a concrete §3-valid payload whose fallback report passes
the validator. -/
theorem c1_witness :
    PayloadInv samplePayload
    ∧ validate_final_json
        (deterministic_fallback samplePayload [] [] [])
        samplePayload = .ok () :=
  ⟨Or.inl rfl,
   c1_fallback_passes_validator samplePayload [] [] [] (Or.inl rfl)⟩

end Reasoning
